import Mathlib

/-!
Verification development for the impresso news-agencies training-material
sampler (`sampling_articles.py`).

The embedding models the three components the claims are about:

* `sample_impresso_uids` — the stratified sampler.  A `Gateway` packages, for
  one fixed keyword and outer date range, the remote calls the sampler makes:
  the year facet query, the per-year newspaper facet query, and the per-cell
  `find` query (the narrowed one-year date range is represented by the year
  string that determines it).  `random.choice` over a non-empty hit list is
  modelled by the `choose` oracle: an arbitrary index, taken modulo the list
  length.  The sampler returns the outcome (the UID list, or the Python
  exception that propagates out of the function) together with the trace of
  remote calls it issued, in order.

* `run_all_newsagencies` — the campaign runner's per-agency loop, over an
  abstract sampler oracle (`Except Unit (List String)`: `.error` is the
  sampler raising).  It returns the final results dictionary, the list of
  agencies the sampler was invoked for, and the snapshots written to the
  checkpoint file, in order.  Python's insertion-ordered `dict` is an
  association list with at most one binding per key (`dictInsert` updates in
  place).

* `get_client` — the refreshing client accessor nested in
  `run_all_newsagencies`, as a state transformer over a simulated clock; the
  session provider is an oracle giving the outcome of each successive
  acquisition attempt (`none` = the acquisition raises).

File contents written by `open(path, "w")` + `json.dump` pass through the
truncated state and every partial prefix of the new content before the write
completes; `persistStates` lists those reachable on-disk states.
-/

/-- One facet bucket as the sampler reads it: only its `value` field is
consulted (`bucket.get("value")`, absent ⇒ `None`). -/
structure Bucket where
  value : Option String
deriving DecidableEq, Repr

/-- One search hit as the sampler reads it: only its `uid` field is consulted
(`hit.get("uid")`, absent ⇒ `None`). -/
structure Hit where
  uid : Option String
deriving DecidableEq, Repr

/-- Result of one remote query: the returned `data` list, or a raised query
error (transient or permanent alike — the sampler never distinguishes them). -/
inductive QR (α : Type) where
  | ok (data : α)
  | err
deriving DecidableEq, Repr

/-- The remote interface as seen by `sample_impresso_uids` for one keyword:
`facetYear` is the year facet query, `facetNewspaper y` the newspaper facet
query narrowed to year `y`, `find y np l` the article query for cell
(year `y`, newspaper `np`) with `limit=l`, and `choose y np` the random index
drawn by `random.choice` in that cell (used modulo the hit count). -/
structure Gateway where
  facetYear : QR (List Bucket)
  facetNewspaper : String → QR (List Bucket)
  find : String → String → Int → QR (List Hit)
  choose : String → String → Nat

/-- Python truthiness on an optional string: `None` and `""` are falsy. -/
def truthyStr : Option String → Option String
  | none => none
  | some s => if s = "" then none else some s

/-- One remote call, as recorded in the sampler's trace. -/
inductive Call where
  | facetYear
  | facetNewspaper (year : String)
  | find (year np : String)
deriving DecidableEq, Repr

/-- The Python exceptions that can leave `sample_impresso_uids`. -/
inductive SampleErr where
  | valueError
  | queryError
deriving DecidableEq, Repr

/-- Outcome of one of the sampler's nested loops: an early `return` from
inside the loop, a fall-through with the accumulated state, or an uncaught
exception propagating. -/
inductive LoopOut where
  | done (uids : List String)
  | cont (uids : List String) (found : Int)
  | err
deriving DecidableEq, Repr

/-- Sort key order used by `sorted(year_buckets, key=lambda b: b.get("value"))`
(`None` ordered first). -/
def optLE : Option String → Option String → Prop
  | none, _ => True
  | some _, none => False
  | some s, some t => s ≤ t

instance : DecidableRel optLE := fun a b =>
  match a, b with
  | none, _ => isTrue trivial
  | some _, none => isFalse id
  | some s, some t => inferInstanceAs (Decidable (s ≤ t))

/-- Bucket comparison for the year-bucket sort. -/
def bucketLE (a b : Bucket) : Prop := optLE a.value b.value

instance : DecidableRel bucketLE := fun a b =>
  inferInstanceAs (Decidable (optLE a.value b.value))

instance : IsTotal Bucket bucketLE where
  total a b := by
    rcases a with ⟨_ | s⟩ <;> rcases b with ⟨_ | t⟩
    · exact Or.inl trivial
    · exact Or.inl trivial
    · exact Or.inr trivial
    · exact le_total s t

instance : IsTrans Bucket bucketLE where
  trans a b c hab hbc := by
    rcases a with ⟨_ | s⟩ <;> rcases b with ⟨_ | t⟩ <;> rcases c with ⟨_ | u⟩
    all_goals first
      | exact trivial
      | exact False.elim hab
      | exact False.elim hbc
      | exact le_trans hab hbc

/-- Inner loop of `sample_impresso_uids`: `for paper in newspaper_buckets`.
Falsy newspaper ids are skipped; the `find` call and the subsequent random
pick, truthiness check, append and `max_hits` check sit in one `try` block
whose `except` logs and moves on to the next newspaper. -/
def procPapers (gw : Gateway) (lpq maxHits : Int) (year : String) :
    List Bucket → List String → Int → LoopOut × List Call
  | [], uids, found => (.cont uids found, [])
  | p :: rest, uids, found =>
    match truthyStr p.value with
    | none => procPapers gw lpq maxHits year rest uids found
    | some np =>
      match gw.find year np lpq with
      | .err =>
        let r := procPapers gw lpq maxHits year rest uids found
        (r.1, Call.find year np :: r.2)
      | .ok hits =>
        match hits with
        | [] =>
          let r := procPapers gw lpq maxHits year rest uids found
          (r.1, Call.find year np :: r.2)
        | h0 :: hrest =>
          let hit := (h0 :: hrest).getD (gw.choose year np % (h0 :: hrest).length) ⟨none⟩
          match truthyStr hit.uid with
          | none =>
            let r := procPapers gw lpq maxHits year rest uids found
            (r.1, Call.find year np :: r.2)
          | some uid =>
            let uids' := uids ++ [uid]
            let found' := found + 1
            if found' ≥ maxHits then (.done uids', [Call.find year np])
            else
              let r := procPapers gw lpq maxHits year rest uids' found'
              (r.1, Call.find year np :: r.2)

/-- Outer loop of `sample_impresso_uids`: `for year_bucket in
sorted_year_buckets`.  Falsy year values are skipped; the newspaper facet
call is not guarded, so a query error there propagates; an empty newspaper
facet is logged and skipped. -/
def procYears (gw : Gateway) (lpq maxHits : Int) :
    List Bucket → List String → Int → LoopOut × List Call
  | [], uids, found => (.cont uids found, [])
  | b :: rest, uids, found =>
    match truthyStr b.value with
    | none => procYears gw lpq maxHits rest uids found
    | some year =>
      match gw.facetNewspaper year with
      | .err => (.err, [Call.facetNewspaper year])
      | .ok papers =>
        if papers = [] then
          let r := procYears gw lpq maxHits rest uids found
          (r.1, Call.facetNewspaper year :: r.2)
        else
          match procPapers gw lpq maxHits year papers uids found with
          | (.done uids', cs) => (.done uids', Call.facetNewspaper year :: cs)
          | (.cont uids' found', cs) =>
            let r := procYears gw lpq maxHits rest uids' found'
            (r.1, Call.facetNewspaper year :: (cs ++ r.2))
          | (.err, cs) => (.err, Call.facetNewspaper year :: cs)

/-- `sample_impresso_uids(client, keyword, ..., limit_per_query, max_hits, delay)`.
Validates `0 < limit_per_query <= 100` (raising `ValueError` otherwise before
any remote call), fetches the year facet (a query error there is logged and
re-raised), returns `[]` on an empty facet, sorts the year buckets ascending
by value, and runs the nested per-year / per-newspaper loops. -/
def sample_impresso_uids (gw : Gateway) (limit_per_query max_hits : Int) :
    Except SampleErr (List String) × List Call :=
  if ¬(0 < limit_per_query ∧ limit_per_query ≤ 100) then (.error .valueError, [])
  else
    match gw.facetYear with
    | .err => (.error .queryError, [Call.facetYear])
    | .ok year_buckets =>
      if year_buckets = [] then (.ok [], [Call.facetYear])
      else
        match procYears gw limit_per_query max_hits
            (List.insertionSort bucketLE year_buckets) [] 0 with
        | (.done uids, cs) => (.ok uids, Call.facetYear :: cs)
        | (.cont uids _, cs) => (.ok uids, Call.facetYear :: cs)
        | (.err, cs) => (.error .queryError, Call.facetYear :: cs)

/-- The checkpoint dictionary: agency → list of sampled doc ids.  Python's
`dict` keeps insertion order and one binding per key. -/
abbrev CampaignResult : Type := List (String × List String)

/-- `results[k]` when present (`k in results`). -/
def dictLookup : CampaignResult → String → Option (List String)
  | [], _ => none
  | (k', v) :: rest, k => if k' = k then some v else dictLookup rest k

/-- `results[k] = v`: update the binding in place, or append a new one. -/
def dictInsert : CampaignResult → String → List String → CampaignResult
  | [], k, v => [(k, v)]
  | (k', v') :: rest, k, v =>
    if k' = k then (k, v) :: rest else (k', v') :: dictInsert rest k v

/-- The skip test of `run_all_newsagencies`: `agency in results and
isinstance(results[agency], list) and results[agency]` (every stored value is
a list, so the test is: present with a non-empty list). -/
def skipDone (res : CampaignResult) (a : String) : Bool :=
  match dictLookup res a with
  | some v => decide (v ≠ [])
  | none => false

/-- Observable outcome of one campaign run: the final dictionary, the
agencies the sampler was invoked for, and the successive snapshots written to
the checkpoint file. -/
structure RunOut where
  results : CampaignResult
  invoked : List String
  writes : List CampaignResult
deriving DecidableEq

/-- The per-agency loop of `run_all_newsagencies`: skip agencies already done,
otherwise invoke the sampler (recording an empty list when it raises), store
the outcome, and persist the full accumulated dictionary before moving on.
The sampler is abstracted as an oracle from agency to outcome, `.error ()`
standing for any exception it raises. -/
def run_all_newsagencies (sampler : String → Except Unit (List String)) :
    List String → CampaignResult → RunOut
  | [], res => ⟨res, [], []⟩
  | a :: rest, res =>
    if skipDone res a then run_all_newsagencies sampler rest res
    else
      let ids := match sampler a with
        | .ok ids => ids
        | .error _ => []
      let res' := dictInsert res a ids
      let r := run_all_newsagencies sampler rest res'
      ⟨r.results, a :: r.invoked, res' :: r.writes⟩

/-- On-disk contents (as character lists) a crash can leave behind during one
checkpoint write performed by `open(out_path, "w")` + `json.dump`: the
previous content (crash before truncation), then — once `open` with mode
`"w"` has truncated the file — every prefix of the new content, the last one
being the completed write. -/
def persistStates (old new : List Char) : List (List Char) :=
  old :: (List.range (new.length + 1)).map (fun k => new.take k)

/-- Default interval between client re-creations, in seconds
(`CLIENT_REFRESH_INTERVAL_SECONDS = 27000`, 7.5 hours). -/
def clientRefreshIntervalSeconds : Int := 27000

/-- Default interval between time-left hints, in seconds
(`CLIENT_REFRESH_HINT_INTERVAL_SECONDS = 900`, 15 minutes). -/
def clientRefreshHintIntervalSeconds : Int := 900

/-- State closed over by the nested `get_client` accessor: the current client
handle (opaque), the timestamps of the last refresh and the last hint, and —
for observability in the model — the number of session acquisitions attempted
so far. -/
structure ProxyState where
  client : Nat
  lastRefresh : Int
  lastHint : Int
  acquisitions : Nat
deriving DecidableEq, Repr

/-- The nested `get_client` accessor of `run_all_newsagencies`, over a
simulated clock `now`.  `provider n` is the outcome of the `n`-th session
acquisition attempt (`none` = `_get_impresso_client_lazy()` raises).  First
the hint block updates `last_hint` when due; then, when the refresh interval
has elapsed, one acquisition is attempted — on success the client is
replaced, on failure the error is logged and the stale client kept — and
`last_refresh` is reset either way; finally the held client is returned. -/
def get_client (provider : Nat → Option Nat) (now : Int) (s : ProxyState) :
    Nat × ProxyState :=
  let s1 := if now - s.lastHint ≥ clientRefreshHintIntervalSeconds then
      { s with lastHint := now } else s
  if now - s1.lastRefresh ≥ clientRefreshIntervalSeconds then
    let s2 := match provider s1.acquisitions with
      | some c => { s1 with client := c, acquisitions := s1.acquisitions + 1 }
      | none => { s1 with acquisitions := s1.acquisitions + 1 }
    let s3 := { s2 with lastRefresh := now }
    (s3.client, s3)
  else (s1.client, s1)

/-- Truthy bucket values of a facet result, in order: the cells the sampler's
loops actually visit. -/
def truthyVals (bs : List Bucket) : List String :=
  bs.filterMap (fun b => truthyStr b.value)

/-- Years of the newspaper-facet calls of a trace, in order. -/
def npYears (tr : List Call) : List String :=
  tr.filterMap (fun c => match c with
    | Call.facetNewspaper y => some y
    | _ => none)

/-- Newspaper ids of the `find` calls of a trace that belong to year `y`,
in order. -/
def findNpsFor (y : String) (tr : List Call) : List String :=
  tr.filterMap (fun c => match c with
    | Call.find y' np => if y' = y then some np else none
    | _ => none)

/-- Whether a trace ends with a `find` call (so nothing was queried after
it). -/
def lastIsFind : List Call → Bool
  | [] => false
  | [c] =>
    match c with
    | Call.find _ _ => true
    | _ => false
  | _ :: c :: tr => lastIsFind (c :: tr)

/-- Accumulated UID list carried by a loop outcome. -/
def outUids : LoopOut → List String
  | .done us => us
  | .cont us _ => us
  | .err => []

instance {ε α : Type} [DecidableEq ε] [DecidableEq α] :
    DecidableEq (Except ε α) := fun x y =>
  match x, y with
  | .ok a, .ok b =>
    if h : a = b then isTrue (by rw [h])
    else isFalse (fun hc => h (Except.ok.inj hc))
  | .ok _, .error _ => isFalse (fun hc => Except.noConfusion hc)
  | .error _, .ok _ => isFalse (fun hc => Except.noConfusion hc)
  | .error e, .error f =>
    if h : e = f then isTrue (by rw [h])
    else isFalse (fun hc => h (Except.error.inj hc))

/-- Fixture: two years (returned out of order), two newspapers per year
(returned out of order), one hit per cell. -/
def gwTwoYears : Gateway where
  facetYear := .ok [⟨some "1901"⟩, ⟨some "1900"⟩]
  facetNewspaper := fun _ => .ok [⟨some "b"⟩, ⟨some "a"⟩]
  find := fun y np _ => .ok [⟨some ("u-" ++ y ++ "-" ++ np)⟩]
  choose := fun _ _ => 0

/-- Fixture: the year facet raises no error but the newspaper facet for
1900 does. -/
def gwFacetErr : Gateway where
  facetYear := .ok [⟨some "1900"⟩]
  facetNewspaper := fun _ => .ok []
  find := fun _ _ _ => .ok []
  choose := fun _ _ => 0

/-- `gwFacetErr` with the newspaper facet call raising a query error. -/
def gwFacetErrRaise : Gateway where
  facetYear := .ok [⟨some "1900"⟩]
  facetNewspaper := fun _ => .err
  find := fun _ _ _ => .ok []
  choose := fun _ _ => 0

/-- Fixture: one year, newspapers `a` then `b`; the `find` call for `a`
raises a query error, the one for `b` returns one hit. -/
def gwFindErr : Gateway where
  facetYear := .ok [⟨some "1900"⟩]
  facetNewspaper := fun _ => .ok [⟨some "a"⟩, ⟨some "b"⟩]
  find := fun _ np _ => if np = "a" then .err else .ok [⟨some "ub"⟩]
  choose := fun _ _ => 0

/-- `gwFindErr` with the erroring `find` call replaced by an empty result. -/
def gwFindErrPatched : Gateway where
  facetYear := .ok [⟨some "1900"⟩]
  facetNewspaper := fun _ => .ok [⟨some "a"⟩, ⟨some "b"⟩]
  find := fun _ np _ => if np = "a" then .ok [] else .ok [⟨some "ub"⟩]
  choose := fun _ _ => 0

/-- Fixture: one year, two newspapers returned in the order `b`, `a`
(descending), one hit per cell. -/
def gwOneYear : Gateway where
  facetYear := .ok [⟨some "1900"⟩]
  facetNewspaper := fun _ => .ok [⟨some "b"⟩, ⟨some "a"⟩]
  find := fun _ np _ => .ok [⟨some ("u-" ++ np)⟩]
  choose := fun _ _ => 0

/-- Fixture: keyword with no year-facet buckets at all. -/
def gwEmptyFacet : Gateway where
  facetYear := .ok []
  facetNewspaper := fun _ => .ok []
  find := fun _ _ _ => .ok []
  choose := fun _ _ => 0

/-- Fixture session provider whose every acquisition attempt fails. -/
def providerFailing : Nat → Option Nat := fun _ => none

/-- Fixture sampler oracle: raises on agency `K`, succeeds elsewhere. -/
def samplerRaisesOnK : String → Except Unit (List String) :=
  fun a => if a = "K" then .error () else .ok ["x-" ++ a]

/-- C3: for every `limit_per_query` outside `[1, 100]`,
`sample_impresso_uids` raises `ValueError` with an empty call trace (so
before issuing any network call), and for every `limit_per_query` in
`[1, 100]` no `ValueError` is raised. -/
theorem sample_validates_limit_per_query (gw : Gateway) (lpq mh : Int) :
    (¬(1 ≤ lpq ∧ lpq ≤ 100) →
      sample_impresso_uids gw lpq mh = (.error .valueError, [])) ∧
    ((1 ≤ lpq ∧ lpq ≤ 100) →
      (sample_impresso_uids gw lpq mh).1 ≠ .error .valueError) := by
  constructor
  · intro h
    have hc : ¬(0 < lpq ∧ lpq ≤ 100) := by omega
    unfold sample_impresso_uids
    rw [if_pos hc]
  · intro h
    have hc : ¬¬(0 < lpq ∧ lpq ≤ 100) := not_not_intro ⟨by omega, h.2⟩
    unfold sample_impresso_uids
    rw [if_neg hc]
    split
    · simp
    · split
      · simp
      · split <;> simp

theorem sample_validates_limit_per_query_witness :
    sample_impresso_uids gwTwoYears 0 20 = (.error .valueError, []) ∧
    (sample_impresso_uids gwTwoYears 20 20).1 ≠ .error .valueError :=
  ⟨(sample_validates_limit_per_query gwTwoYears 0 20).1 (by decide),
   (sample_validates_limit_per_query gwTwoYears 20 20).2 (by decide)⟩

/-- C9: for a keyword whose year facet returns zero buckets,
`sample_impresso_uids` returns the empty list without raising, and its
trace contains only the year facet call — no newspaper facet or find call
was issued. -/
theorem sample_empty_year_facet_returns_empty (gw : Gateway) (lpq mh : Int)
    (h1 : 1 ≤ lpq) (h2 : lpq ≤ 100) (hy : gw.facetYear = .ok []) :
    sample_impresso_uids gw lpq mh = (.ok [], [Call.facetYear]) := by
  have hc : ¬¬(0 < lpq ∧ lpq ≤ 100) := not_not_intro ⟨by omega, h2⟩
  unfold sample_impresso_uids
  rw [if_neg hc, hy]
  rfl

theorem sample_empty_year_facet_returns_empty_witness :
    sample_impresso_uids gwEmptyFacet 20 20 = (.ok [], [Call.facetYear]) :=
  sample_empty_year_facet_returns_empty gwEmptyFacet 20 20 (by decide)
    (by decide) rfl

/-- C8: a `get_client` call made before the refresh interval has elapsed
attempts no session acquisition and returns the held client unchanged
(leaving the client and refresh timestamp alone); the first call at or past
the interval attempts exactly one acquisition; and if that acquisition
fails, the previously held stale client is still returned rather than the
failure propagating. -/
theorem get_client_refresh_policy (provider : Nat → Option Nat) (now : Int)
    (s : ProxyState) :
    (now - s.lastRefresh < clientRefreshIntervalSeconds →
      (get_client provider now s).1 = s.client ∧
      (get_client provider now s).2.client = s.client ∧
      (get_client provider now s).2.acquisitions = s.acquisitions ∧
      (get_client provider now s).2.lastRefresh = s.lastRefresh) ∧
    (now - s.lastRefresh ≥ clientRefreshIntervalSeconds →
      (get_client provider now s).2.acquisitions = s.acquisitions + 1 ∧
      (provider s.acquisitions = none →
        (get_client provider now s).1 = s.client)) := by
  unfold get_client
  by_cases hh : now - s.lastHint ≥ clientRefreshHintIntervalSeconds <;>
    simp only [if_pos, if_neg, hh, ite_true, ite_false] <;>
    by_cases hr : now - s.lastRefresh ≥ clientRefreshIntervalSeconds <;>
    constructor <;> intro h <;>
    first
      | omega
      | (cases hp : provider s.acquisitions <;> simp [hp, if_pos, if_neg, hr])

theorem get_client_refresh_policy_witness :
    ((get_client providerFailing 5 ⟨7, 0, 0, 0⟩).1 = 7 ∧
      (get_client providerFailing 5 ⟨7, 0, 0, 0⟩).2.client = 7 ∧
      (get_client providerFailing 5 ⟨7, 0, 0, 0⟩).2.acquisitions = 0 ∧
      (get_client providerFailing 5 ⟨7, 0, 0, 0⟩).2.lastRefresh = 0) ∧
    ((get_client providerFailing 30000 ⟨7, 0, 0, 0⟩).2.acquisitions = 1 ∧
      (get_client providerFailing 30000 ⟨7, 0, 0, 0⟩).1 = 7) :=
  ⟨(get_client_refresh_policy providerFailing 5 ⟨7, 0, 0, 0⟩).1 (by decide),
   ⟨((get_client_refresh_policy providerFailing 30000 ⟨7, 0, 0, 0⟩).2
        (by decide)).1,
    ((get_client_refresh_policy providerFailing 30000 ⟨7, 0, 0, 0⟩).2
        (by decide)).2 rfl⟩⟩

theorem procPapers_nil (gw : Gateway) (lpq mh : Int) (year : String)
    (uids : List String) (found : Int) :
    procPapers gw lpq mh year [] uids found = (.cont uids found, []) := rfl

theorem procPapers_skip (gw : Gateway) (lpq mh : Int) (year : String)
    {p : Bucket} (rest : List Bucket) (uids : List String) (found : Int)
    (htv : truthyStr p.value = none) :
    procPapers gw lpq mh year (p :: rest) uids found =
      procPapers gw lpq mh year rest uids found := by
  rw [procPapers, htv]

theorem procPapers_findErr (gw : Gateway) (lpq mh : Int) (year : String)
    {p : Bucket} (rest : List Bucket) (uids : List String) (found : Int)
    {np : String} (htv : truthyStr p.value = some np)
    (hf : gw.find year np lpq = .err) :
    procPapers gw lpq mh year (p :: rest) uids found =
      ((procPapers gw lpq mh year rest uids found).1,
       Call.find year np :: (procPapers gw lpq mh year rest uids found).2) := by
  rw [procPapers, htv]
  dsimp only
  rw [hf]

theorem procPapers_findEmpty (gw : Gateway) (lpq mh : Int) (year : String)
    {p : Bucket} (rest : List Bucket) (uids : List String) (found : Int)
    {np : String} (htv : truthyStr p.value = some np)
    (hf : gw.find year np lpq = .ok []) :
    procPapers gw lpq mh year (p :: rest) uids found =
      ((procPapers gw lpq mh year rest uids found).1,
       Call.find year np :: (procPapers gw lpq mh year rest uids found).2) := by
  rw [procPapers, htv]
  dsimp only
  rw [hf]

theorem procPapers_hitFalsy (gw : Gateway) (lpq mh : Int) (year : String)
    {p : Bucket} (rest : List Bucket) (uids : List String) (found : Int)
    {np : String} (htv : truthyStr p.value = some np)
    {h0 : Hit} {hrest : List Hit} (hf : gw.find year np lpq = .ok (h0 :: hrest))
    (htu : truthyStr ((h0 :: hrest).getD
        (gw.choose year np % (h0 :: hrest).length) ⟨none⟩).uid = none) :
    procPapers gw lpq mh year (p :: rest) uids found =
      ((procPapers gw lpq mh year rest uids found).1,
       Call.find year np :: (procPapers gw lpq mh year rest uids found).2) := by
  rw [procPapers, htv]
  dsimp only
  rw [hf]
  dsimp only
  rw [htu]

theorem procPapers_hitDone (gw : Gateway) (lpq mh : Int) (year : String)
    {p : Bucket} (rest : List Bucket) (uids : List String) (found : Int)
    {np : String} (htv : truthyStr p.value = some np)
    {h0 : Hit} {hrest : List Hit} (hf : gw.find year np lpq = .ok (h0 :: hrest))
    {uid : String} (htu : truthyStr ((h0 :: hrest).getD
        (gw.choose year np % (h0 :: hrest).length) ⟨none⟩).uid = some uid)
    (hge : found + 1 ≥ mh) :
    procPapers gw lpq mh year (p :: rest) uids found =
      (.done (uids ++ [uid]), [Call.find year np]) := by
  rw [procPapers, htv]
  dsimp only
  rw [hf]
  dsimp only
  rw [htu]
  dsimp only
  rw [if_pos hge]

theorem procPapers_hitCont (gw : Gateway) (lpq mh : Int) (year : String)
    {p : Bucket} (rest : List Bucket) (uids : List String) (found : Int)
    {np : String} (htv : truthyStr p.value = some np)
    {h0 : Hit} {hrest : List Hit} (hf : gw.find year np lpq = .ok (h0 :: hrest))
    {uid : String} (htu : truthyStr ((h0 :: hrest).getD
        (gw.choose year np % (h0 :: hrest).length) ⟨none⟩).uid = some uid)
    (hlt : ¬(found + 1 ≥ mh)) :
    procPapers gw lpq mh year (p :: rest) uids found =
      ((procPapers gw lpq mh year rest (uids ++ [uid]) (found + 1)).1,
       Call.find year np ::
         (procPapers gw lpq mh year rest (uids ++ [uid]) (found + 1)).2) := by
  rw [procPapers, htv]
  dsimp only
  rw [hf]
  dsimp only
  rw [htu]
  dsimp only
  rw [if_neg hlt]

theorem procYears_nil (gw : Gateway) (lpq mh : Int)
    (uids : List String) (found : Int) :
    procYears gw lpq mh [] uids found = (.cont uids found, []) := rfl

theorem procYears_skip (gw : Gateway) (lpq mh : Int)
    {b : Bucket} (rest : List Bucket) (uids : List String) (found : Int)
    (htv : truthyStr b.value = none) :
    procYears gw lpq mh (b :: rest) uids found =
      procYears gw lpq mh rest uids found := by
  rw [procYears, htv]

theorem procYears_fnErr (gw : Gateway) (lpq mh : Int)
    {b : Bucket} (rest : List Bucket) (uids : List String) (found : Int)
    {year : String} (htv : truthyStr b.value = some year)
    (hfn : gw.facetNewspaper year = .err) :
    procYears gw lpq mh (b :: rest) uids found =
      (.err, [Call.facetNewspaper year]) := by
  rw [procYears, htv]
  dsimp only
  rw [hfn]

theorem procYears_fnEmpty (gw : Gateway) (lpq mh : Int)
    {b : Bucket} (rest : List Bucket) (uids : List String) (found : Int)
    {year : String} (htv : truthyStr b.value = some year)
    (hfn : gw.facetNewspaper year = .ok []) :
    procYears gw lpq mh (b :: rest) uids found =
      ((procYears gw lpq mh rest uids found).1,
       Call.facetNewspaper year :: (procYears gw lpq mh rest uids found).2) := by
  rw [procYears, htv]
  dsimp only
  rw [hfn]
  dsimp only
  rw [if_pos rfl]

theorem procYears_fnDone (gw : Gateway) (lpq mh : Int)
    {b : Bucket} (rest : List Bucket) (uids : List String) (found : Int)
    {year : String} (htv : truthyStr b.value = some year)
    {papers : List Bucket} (hfn : gw.facetNewspaper year = .ok papers)
    (hne : papers ≠ [])
    {us : List String} {cs : List Call}
    (hp : procPapers gw lpq mh year papers uids found = (.done us, cs)) :
    procYears gw lpq mh (b :: rest) uids found =
      (.done us, Call.facetNewspaper year :: cs) := by
  rw [procYears, htv]
  dsimp only
  rw [hfn]
  dsimp only
  rw [if_neg hne, hp]

theorem procYears_fnCont (gw : Gateway) (lpq mh : Int)
    {b : Bucket} (rest : List Bucket) (uids : List String) (found : Int)
    {year : String} (htv : truthyStr b.value = some year)
    {papers : List Bucket} (hfn : gw.facetNewspaper year = .ok papers)
    (hne : papers ≠ [])
    {us : List String} {f : Int} {cs : List Call}
    (hp : procPapers gw lpq mh year papers uids found = (.cont us f, cs)) :
    procYears gw lpq mh (b :: rest) uids found =
      ((procYears gw lpq mh rest us f).1,
       Call.facetNewspaper year :: (cs ++ (procYears gw lpq mh rest us f).2)) := by
  rw [procYears, htv]
  dsimp only
  rw [hfn]
  dsimp only
  rw [if_neg hne, hp]

theorem procYears_fnErrOut (gw : Gateway) (lpq mh : Int)
    {b : Bucket} (rest : List Bucket) (uids : List String) (found : Int)
    {year : String} (htv : truthyStr b.value = some year)
    {papers : List Bucket} (hfn : gw.facetNewspaper year = .ok papers)
    (hne : papers ≠ [])
    {cs : List Call}
    (hp : procPapers gw lpq mh year papers uids found = (.err, cs)) :
    procYears gw lpq mh (b :: rest) uids found =
      (.err, Call.facetNewspaper year :: cs) := by
  rw [procYears, htv]
  dsimp only
  rw [hfn]
  dsimp only
  rw [if_neg hne, hp]

theorem sample_invalid (gw : Gateway) (lpq mh : Int)
    (hc : ¬(0 < lpq ∧ lpq ≤ 100)) :
    sample_impresso_uids gw lpq mh = (.error .valueError, []) := by
  unfold sample_impresso_uids
  rw [if_pos hc]

theorem sample_fyErr (gw : Gateway) (lpq mh : Int)
    (hc : 0 < lpq ∧ lpq ≤ 100) (hy : gw.facetYear = .err) :
    sample_impresso_uids gw lpq mh =
      (.error .queryError, [Call.facetYear]) := by
  unfold sample_impresso_uids
  rw [if_neg (not_not_intro hc), hy]

theorem sample_fyEmpty (gw : Gateway) (lpq mh : Int)
    (hc : 0 < lpq ∧ lpq ≤ 100) (hy : gw.facetYear = .ok []) :
    sample_impresso_uids gw lpq mh = (.ok [], [Call.facetYear]) := by
  unfold sample_impresso_uids
  rw [if_neg (not_not_intro hc), hy]
  rfl

theorem sample_fyOk (gw : Gateway) (lpq mh : Int)
    (hc : 0 < lpq ∧ lpq ≤ 100) {yb : List Bucket}
    (hy : gw.facetYear = .ok yb) (hne : yb ≠ []) :
    sample_impresso_uids gw lpq mh =
      (match procYears gw lpq mh (List.insertionSort bucketLE yb) [] 0 with
        | (.done us, cs) => (.ok us, Call.facetYear :: cs)
        | (.cont us _, cs) => (.ok us, Call.facetYear :: cs)
        | (.err, cs) => (.error .queryError, Call.facetYear :: cs)) := by
  unfold sample_impresso_uids
  rw [if_neg (not_not_intro hc), hy]
  dsimp only
  rw [if_neg hne]

theorem truthyStr_ne_empty : ∀ {o : Option String} {s : String},
    truthyStr o = some s → s ≠ ""
  | none, _, h => Option.noConfusion h
  | some t, s, h => by
    by_cases ht : t = ""
    · rw [truthyStr, if_pos ht] at h
      exact Option.noConfusion h
    · rw [truthyStr, if_neg ht] at h
      rw [← Option.some.inj h]
      exact ht

theorem truthyStr_eq_some : ∀ {o : Option String} {s : String},
    truthyStr o = some s → o = some s
  | none, _, h => Option.noConfusion h
  | some t, s, h => by
    by_cases ht : t = ""
    · rw [truthyStr, if_pos ht] at h
      exact Option.noConfusion h
    · rw [truthyStr, if_neg ht] at h
      exact h

theorem lastIsFind_cons (c : Call) : ∀ {tr : List Call},
    lastIsFind tr = true → lastIsFind (c :: tr) = true
  | _ :: _, h => h
  | [], h => Bool.noConfusion h

theorem lastIsFind_append (l : List Call) {tr : List Call}
    (h : lastIsFind tr = true) : lastIsFind (l ++ tr) = true := by
  induction l with
  | nil => exact h
  | cons c l' ih => exact lastIsFind_cons c ih

theorem procPapers_clean (gw : Gateway) (lpq mh : Int) (year : String) :
    ∀ (papers : List Bucket) (uids : List String) (found : Int),
      (∀ u ∈ uids, u ≠ "") →
      ∀ u ∈ outUids (procPapers gw lpq mh year papers uids found).1, u ≠ "" := by
  intro papers
  induction papers with
  | nil =>
    intro uids found hclean u hu
    rw [procPapers_nil] at hu
    exact hclean u hu
  | cons p rest ih =>
    intro uids found hclean u hu
    cases htv : truthyStr p.value with
    | none =>
      rw [procPapers_skip gw lpq mh year rest uids found htv] at hu
      exact ih uids found hclean u hu
    | some np =>
      cases hf : gw.find year np lpq with
      | err =>
        rw [procPapers_findErr gw lpq mh year rest uids found htv hf] at hu
        exact ih uids found hclean u hu
      | ok hits =>
        cases hits with
        | nil =>
          rw [procPapers_findEmpty gw lpq mh year rest uids found htv hf] at hu
          exact ih uids found hclean u hu
        | cons h0 hrest =>
          cases htu : truthyStr ((h0 :: hrest).getD
              (gw.choose year np % (h0 :: hrest).length) ⟨none⟩).uid with
          | none =>
            rw [procPapers_hitFalsy gw lpq mh year rest uids found htv hf htu] at hu
            exact ih uids found hclean u hu
          | some uid =>
            have huid : uid ≠ "" := truthyStr_ne_empty htu
            have hclean' : ∀ v ∈ uids ++ [uid], v ≠ "" := by
              intro v hv
              rcases List.mem_append.1 hv with h | h
              · exact hclean v h
              · rcases List.mem_singleton.1 h with rfl
                exact huid
            by_cases hge : found + 1 ≥ mh
            · rw [procPapers_hitDone gw lpq mh year rest uids found htv hf htu
                hge] at hu
              exact hclean' u hu
            · rw [procPapers_hitCont gw lpq mh year rest uids found htv hf htu
                hge] at hu
              exact ih (uids ++ [uid]) (found + 1) hclean' u hu

theorem procYears_clean (gw : Gateway) (lpq mh : Int) :
    ∀ (ys : List Bucket) (uids : List String) (found : Int),
      (∀ u ∈ uids, u ≠ "") →
      ∀ u ∈ outUids (procYears gw lpq mh ys uids found).1, u ≠ "" := by
  intro ys
  induction ys with
  | nil =>
    intro uids found hclean u hu
    rw [procYears_nil] at hu
    exact hclean u hu
  | cons b rest ih =>
    intro uids found hclean u hu
    cases htv : truthyStr b.value with
    | none =>
      rw [procYears_skip gw lpq mh rest uids found htv] at hu
      exact ih uids found hclean u hu
    | some year =>
      cases hfn : gw.facetNewspaper year with
      | err =>
        rw [procYears_fnErr gw lpq mh rest uids found htv hfn] at hu
        exact absurd hu (List.not_mem_nil u)
      | ok papers =>
        by_cases hne : papers = []
        · subst hne
          rw [procYears_fnEmpty gw lpq mh rest uids found htv hfn] at hu
          exact ih uids found hclean u hu
        · rcases hp : procPapers gw lpq mh year papers uids found with ⟨out, cs⟩
          have hpp := procPapers_clean gw lpq mh year papers uids found hclean
          rw [hp] at hpp
          cases out with
          | done us =>
            rw [procYears_fnDone gw lpq mh rest uids found htv hfn hne hp] at hu
            exact hpp u hu
          | cont us f =>
            rw [procYears_fnCont gw lpq mh rest uids found htv hfn hne hp] at hu
            exact ih us f hpp u hu
          | err =>
            rw [procYears_fnErrOut gw lpq mh rest uids found htv hfn hne hp] at hu
            exact absurd hu (List.not_mem_nil u)

/-- C10: every element of a UID list returned by `sample_impresso_uids` is a
truthy (non-empty) string: falsy year or newspaper bucket values are skipped
and a falsy `uid` on the randomly chosen hit contributes nothing, so the
returned list never holds an empty UID. -/
theorem sample_uids_truthy (gw : Gateway) (lpq mh : Int)
    (uids : List String) (tr : List Call)
    (h : sample_impresso_uids gw lpq mh = (.ok uids, tr)) :
    ∀ u ∈ uids, u ≠ "" := by
  by_cases hc : 0 < lpq ∧ lpq ≤ 100
  · cases hy : gw.facetYear with
    | err =>
      rw [sample_fyErr gw lpq mh hc hy] at h
      exact absurd (congrArg Prod.fst h) (by simp)
    | ok yb =>
      by_cases hne : yb = []
      · subst hne
        rw [sample_fyEmpty gw lpq mh hc hy] at h
        have h1 : ([] : List String) = uids := by
          have := congrArg Prod.fst h
          simpa using this
        intro u hu
        rw [← h1] at hu
        exact absurd hu (List.not_mem_nil u)
      · have hclean := procYears_clean gw lpq mh
          (List.insertionSort bucketLE yb) [] 0
          (by intro u hu; exact absurd hu (List.not_mem_nil u))
        rcases hp : procYears gw lpq mh (List.insertionSort bucketLE yb) [] 0
          with ⟨out, cs⟩
        rw [hp] at hclean
        rw [sample_fyOk gw lpq mh hc hy hne, hp] at h
        cases out with
        | done us =>
          have h1 : us = uids := by
            have := congrArg Prod.fst h
            simpa using this
          intro u hu
          rw [← h1] at hu
          exact hclean u hu
        | cont us f =>
          have h1 : us = uids := by
            have := congrArg Prod.fst h
            simpa using this
          intro u hu
          rw [← h1] at hu
          exact hclean u hu
        | err =>
          exact absurd (congrArg Prod.fst h) (by simp)
  · rw [sample_invalid gw lpq mh hc] at h
    exact absurd (congrArg Prod.fst h) (by simp)

theorem sample_uids_truthy_witness :
    "u-b" ≠ "" ∧ "u-a" ≠ "" :=
  ⟨sample_uids_truthy gwOneYear 20 20 ["u-b", "u-a"]
    [Call.facetYear, Call.facetNewspaper "1900", Call.find "1900" "b",
     Call.find "1900" "a"] (by decide) "u-b" (by decide),
   sample_uids_truthy gwOneYear 20 20 ["u-b", "u-a"]
    [Call.facetYear, Call.facetNewspaper "1900", Call.find "1900" "b",
     Call.find "1900" "a"] (by decide) "u-a" (by decide)⟩

theorem procPapers_count (gw : Gateway) (lpq mh : Int) (year : String) :
    ∀ (papers : List Bucket) (uids : List String) (found : Int),
      (uids.length : Int) = found → found < mh →
      (∀ us cs, procPapers gw lpq mh year papers uids found = (.done us, cs) →
        (us.length : Int) = mh ∧ lastIsFind cs = true) ∧
      (∀ us f cs, procPapers gw lpq mh year papers uids found = (.cont us f, cs) →
        (us.length : Int) = f ∧ f < mh) := by
  intro papers
  induction papers with
  | nil =>
    intro uids found hlen hlt
    constructor
    · intro us cs h
      rw [procPapers_nil, Prod.mk.injEq] at h
      exact absurd h.1 (by simp)
    · intro us f cs h
      rw [procPapers_nil, Prod.mk.injEq] at h
      obtain ⟨h1, h2⟩ := h
      injection h1 with e1 e2
      subst e1
      subst e2
      exact ⟨hlen, hlt⟩
  | cons p rest ih =>
    intro uids found hlen hlt
    cases htv : truthyStr p.value with
    | none =>
      constructor
      · intro us cs h
        rw [procPapers_skip gw lpq mh year rest uids found htv] at h
        exact (ih uids found hlen hlt).1 us cs h
      · intro us f cs h
        rw [procPapers_skip gw lpq mh year rest uids found htv] at h
        exact (ih uids found hlen hlt).2 us f cs h
    | some np =>
      have step :
          ∀ heq : procPapers gw lpq mh year (p :: rest) uids found =
            ((procPapers gw lpq mh year rest uids found).1,
             Call.find year np :: (procPapers gw lpq mh year rest uids found).2),
          (∀ us cs, procPapers gw lpq mh year (p :: rest) uids found =
              (.done us, cs) →
            (us.length : Int) = mh ∧ lastIsFind cs = true) ∧
          (∀ us f cs, procPapers gw lpq mh year (p :: rest) uids found =
              (.cont us f, cs) →
            (us.length : Int) = f ∧ f < mh) := by
        intro heq
        rcases hrec : procPapers gw lpq mh year rest uids found with ⟨out, cs'⟩
        rw [hrec] at heq
        constructor
        · intro us cs h
          rw [heq, Prod.mk.injEq] at h
          obtain ⟨h1, h2⟩ := h
          dsimp only at h1 h2
          rw [h1] at hrec
          obtain ⟨hl, hf⟩ := (ih uids found hlen hlt).1 us cs' hrec
          rw [← h2]
          exact ⟨hl, lastIsFind_cons (Call.find year np) hf⟩
        · intro us f cs h
          rw [heq, Prod.mk.injEq] at h
          obtain ⟨h1, h2⟩ := h
          dsimp only at h1 h2
          rw [h1] at hrec
          exact (ih uids found hlen hlt).2 us f cs' hrec
      cases hf : gw.find year np lpq with
      | err =>
        exact step (procPapers_findErr gw lpq mh year rest uids found htv hf)
      | ok hits =>
        cases hits with
        | nil =>
          exact step (procPapers_findEmpty gw lpq mh year rest uids found htv hf)
        | cons h0 hrest =>
          cases htu : truthyStr ((h0 :: hrest).getD
              (gw.choose year np % (h0 :: hrest).length) ⟨none⟩).uid with
          | none =>
            exact step (procPapers_hitFalsy gw lpq mh year rest uids found htv hf htu)
          | some uid =>
            by_cases hge : found + 1 ≥ mh
            · constructor
              · intro us cs h
                rw [procPapers_hitDone gw lpq mh year rest uids found htv hf htu
                    hge, Prod.mk.injEq] at h
                obtain ⟨h1, h2⟩ := h
                injection h1 with e1
                subst e1
                rw [← h2]
                constructor
                · simp
                  omega
                · rfl
              · intro us f cs h
                rw [procPapers_hitDone gw lpq mh year rest uids found htv hf htu
                    hge, Prod.mk.injEq] at h
                exact absurd h.1 (by simp)
            · have hlen' : ((uids ++ [uid]).length : Int) = found + 1 := by
                simp
                omega
              have hlt' : found + 1 < mh := by omega
              constructor
              · intro us cs h
                rw [procPapers_hitCont gw lpq mh year rest uids found htv hf htu
                    hge] at h
                rcases hrec : procPapers gw lpq mh year rest (uids ++ [uid])
                    (found + 1) with ⟨out, cs'⟩
                rw [hrec, Prod.mk.injEq] at h
                obtain ⟨h1, h2⟩ := h
                dsimp only at h1 h2
                rw [h1] at hrec
                obtain ⟨hl, hfnd⟩ :=
                  (ih (uids ++ [uid]) (found + 1) hlen' hlt').1 us cs' hrec
                rw [← h2]
                exact ⟨hl, lastIsFind_cons (Call.find year np) hfnd⟩
              · intro us f cs h
                rw [procPapers_hitCont gw lpq mh year rest uids found htv hf htu
                    hge] at h
                rcases hrec : procPapers gw lpq mh year rest (uids ++ [uid])
                    (found + 1) with ⟨out, cs'⟩
                rw [hrec, Prod.mk.injEq] at h
                obtain ⟨h1, h2⟩ := h
                dsimp only at h1 h2
                rw [h1] at hrec
                exact (ih (uids ++ [uid]) (found + 1) hlen' hlt').2 us f cs' hrec

theorem procYears_count (gw : Gateway) (lpq mh : Int) :
    ∀ (ys : List Bucket) (uids : List String) (found : Int),
      (uids.length : Int) = found → found < mh →
      (∀ us cs, procYears gw lpq mh ys uids found = (.done us, cs) →
        (us.length : Int) = mh ∧ lastIsFind cs = true) ∧
      (∀ us f cs, procYears gw lpq mh ys uids found = (.cont us f, cs) →
        (us.length : Int) = f ∧ f < mh) := by
  intro ys
  induction ys with
  | nil =>
    intro uids found hlen hlt
    constructor
    · intro us cs h
      rw [procYears_nil, Prod.mk.injEq] at h
      exact absurd h.1 (by simp)
    · intro us f cs h
      rw [procYears_nil, Prod.mk.injEq] at h
      obtain ⟨h1, h2⟩ := h
      injection h1 with e1 e2
      subst e1
      subst e2
      exact ⟨hlen, hlt⟩
  | cons b rest ih =>
    intro uids found hlen hlt
    cases htv : truthyStr b.value with
    | none =>
      constructor
      · intro us cs h
        rw [procYears_skip gw lpq mh rest uids found htv] at h
        exact (ih uids found hlen hlt).1 us cs h
      · intro us f cs h
        rw [procYears_skip gw lpq mh rest uids found htv] at h
        exact (ih uids found hlen hlt).2 us f cs h
    | some year =>
      cases hfn : gw.facetNewspaper year with
      | err =>
        constructor
        · intro us cs h
          rw [procYears_fnErr gw lpq mh rest uids found htv hfn,
            Prod.mk.injEq] at h
          exact absurd h.1 (by simp)
        · intro us f cs h
          rw [procYears_fnErr gw lpq mh rest uids found htv hfn,
            Prod.mk.injEq] at h
          exact absurd h.1 (by simp)
      | ok papers =>
        by_cases hne : papers = []
        · subst hne
          rcases hrec : procYears gw lpq mh rest uids found with ⟨out, cs'⟩
          constructor
          · intro us cs h
            rw [procYears_fnEmpty gw lpq mh rest uids found htv hfn, hrec,
              Prod.mk.injEq] at h
            obtain ⟨h1, h2⟩ := h
            dsimp only at h1 h2
            rw [h1] at hrec
            obtain ⟨hl, hfind⟩ := (ih uids found hlen hlt).1 us cs' hrec
            rw [← h2]
            exact ⟨hl, lastIsFind_cons (Call.facetNewspaper year) hfind⟩
          · intro us f cs h
            rw [procYears_fnEmpty gw lpq mh rest uids found htv hfn, hrec,
              Prod.mk.injEq] at h
            obtain ⟨h1, h2⟩ := h
            dsimp only at h1 h2
            rw [h1] at hrec
            exact (ih uids found hlen hlt).2 us f cs' hrec
        · rcases hp : procPapers gw lpq mh year papers uids found
            with ⟨pout, csP⟩
          have hppc := procPapers_count gw lpq mh year papers uids found
            hlen hlt
          rw [hp] at hppc
          cases pout with
          | done us' =>
            obtain ⟨hl, hfind⟩ := hppc.1 us' csP rfl
            constructor
            · intro us cs h
              rw [procYears_fnDone gw lpq mh rest uids found htv hfn hne hp,
                Prod.mk.injEq] at h
              obtain ⟨h1, h2⟩ := h
              injection h1 with e1
              subst e1
              rw [← h2]
              exact ⟨hl, lastIsFind_cons (Call.facetNewspaper year) hfind⟩
            · intro us f cs h
              rw [procYears_fnDone gw lpq mh rest uids found htv hfn hne hp,
                Prod.mk.injEq] at h
              exact absurd h.1 (by simp)
          | cont us' f' =>
            obtain ⟨hl', hf'⟩ := hppc.2 us' f' csP rfl
            rcases hrec : procYears gw lpq mh rest us' f' with ⟨out, csR⟩
            constructor
            · intro us cs h
              rw [procYears_fnCont gw lpq mh rest uids found htv hfn hne hp,
                hrec, Prod.mk.injEq] at h
              obtain ⟨h1, h2⟩ := h
              dsimp only at h1 h2
              rw [h1] at hrec
              obtain ⟨hl, hfind⟩ := (ih us' f' hl' hf').1 us csR hrec
              rw [← h2]
              exact ⟨hl, lastIsFind_cons (Call.facetNewspaper year)
                (lastIsFind_append csP hfind)⟩
            · intro us f cs h
              rw [procYears_fnCont gw lpq mh rest uids found htv hfn hne hp,
                hrec, Prod.mk.injEq] at h
              obtain ⟨h1, h2⟩ := h
              dsimp only at h1 h2
              rw [h1] at hrec
              exact (ih us' f' hl' hf').2 us f csR hrec
          | err =>
            constructor
            · intro us cs h
              rw [procYears_fnErrOut gw lpq mh rest uids found htv hfn hne hp,
                Prod.mk.injEq] at h
              exact absurd h.1 (by simp)
            · intro us f cs h
              rw [procYears_fnErrOut gw lpq mh rest uids found htv hfn hne hp,
                Prod.mk.injEq] at h
              exact absurd h.1 (by simp)

/-- C2: for every positive `max_hits`, a successful `sample_impresso_uids`
run returns at most `max_hits` UIDs, and when the accumulated count reaches
`max_hits` the function returns immediately after the `find` call that
produced the last UID: its call trace ends with that `find` call, so no
facet or find query is issued for any remaining (year, newspaper) cell. -/
theorem sample_respects_max_hits (gw : Gateway) (lpq mh : Int) (hmh : 0 < mh)
    (uids : List String) (tr : List Call)
    (h : sample_impresso_uids gw lpq mh = (.ok uids, tr)) :
    (uids.length : Int) ≤ mh ∧
    ((uids.length : Int) = mh → lastIsFind tr = true) := by
  by_cases hc : 0 < lpq ∧ lpq ≤ 100
  · cases hy : gw.facetYear with
    | err =>
      rw [sample_fyErr gw lpq mh hc hy] at h
      exact absurd (congrArg Prod.fst h) (by simp)
    | ok yb =>
      by_cases hne : yb = []
      · subst hne
        rw [sample_fyEmpty gw lpq mh hc hy, Prod.mk.injEq] at h
        obtain ⟨h1, h2⟩ := h
        have hu : ([] : List String) = uids := by simpa using h1
        rw [← hu]
        constructor
        · simp
          omega
        · intro hx
          simp at hx
          omega
      · have hcount := procYears_count gw lpq mh
          (List.insertionSort bucketLE yb) [] 0 (by simp) hmh
        rcases hp : procYears gw lpq mh (List.insertionSort bucketLE yb) [] 0
          with ⟨out, cs⟩
        rw [hp] at hcount
        rw [sample_fyOk gw lpq mh hc hy hne, hp] at h
        cases out with
        | done us =>
          rw [Prod.mk.injEq] at h
          obtain ⟨h1, h2⟩ := h
          have hu : us = uids := by simpa using h1
          subst hu
          obtain ⟨hl, hfind⟩ := hcount.1 us cs rfl
          constructor
          · omega
          · intro _
            rw [← h2]
            exact lastIsFind_cons Call.facetYear hfind
        | cont us f =>
          rw [Prod.mk.injEq] at h
          obtain ⟨h1, h2⟩ := h
          have hu : us = uids := by simpa using h1
          subst hu
          obtain ⟨hl, hflt⟩ := hcount.2 us f cs rfl
          constructor
          · omega
          · intro hx
            exact absurd hx (by omega)
        | err =>
          exact absurd (congrArg Prod.fst h) (by simp)
  · rw [sample_invalid gw lpq mh hc] at h
    exact absurd (congrArg Prod.fst h) (by simp)

theorem sample_respects_max_hits_witness :
    ((["u-b"].length : Int) ≤ 1 ∧
      ((["u-b"].length : Int) = 1 →
        lastIsFind [Call.facetYear, Call.facetNewspaper "1900",
          Call.find "1900" "b"] = true)) :=
  sample_respects_max_hits gwOneYear 20 1 (by decide) ["u-b"]
    [Call.facetYear, Call.facetNewspaper "1900", Call.find "1900" "b"]
    (by decide)

/-- C1 counterexample: a query error raised by a single facet call does
abort the whole `sample_impresso_uids` call.  With the year facet
succeeding and the newspaper facet for 1900 raising, the error propagates
out of the sampler (the newspaper facet call is made outside any
`try`/`except`), contradicting the claim that no facet-call error ever
aborts the keyword. -/
theorem facet_error_aborts_sample :
    sample_impresso_uids gwFacetErrRaise 20 20 =
      (.error .queryError, [Call.facetYear, Call.facetNewspaper "1900"]) := by
  decide

theorem procPapers_congr (gw gw' : Gateway) (lpq mh : Int) (year : String)
    (hch : gw'.choose = gw.choose)
    (hfind : ∀ y np l, gw'.find y np l = gw.find y np l ∨
      (gw.find y np l = .err ∧ gw'.find y np l = .ok [])) :
    ∀ (papers : List Bucket) (uids : List String) (found : Int),
      procPapers gw' lpq mh year papers uids found =
      procPapers gw lpq mh year papers uids found := by
  intro papers
  induction papers with
  | nil => intro uids found; rw [procPapers_nil, procPapers_nil]
  | cons p rest ih =>
    intro uids found
    cases htv : truthyStr p.value with
    | none =>
      rw [procPapers_skip gw' lpq mh year rest uids found htv,
        procPapers_skip gw lpq mh year rest uids found htv, ih]
    | some np =>
      rcases hfind year np lpq with heq | ⟨herr, hok⟩
      · cases hf : gw.find year np lpq with
        | err =>
          have hf' : gw'.find year np lpq = .err := by rw [heq, hf]
          rw [procPapers_findErr gw' lpq mh year rest uids found htv hf',
            procPapers_findErr gw lpq mh year rest uids found htv hf, ih]
        | ok hits =>
          have hf' : gw'.find year np lpq = .ok hits := by rw [heq, hf]
          cases hits with
          | nil =>
            rw [procPapers_findEmpty gw' lpq mh year rest uids found htv hf',
              procPapers_findEmpty gw lpq mh year rest uids found htv hf, ih]
          | cons h0 hrest =>
            have hchn : gw'.choose year np = gw.choose year np := by rw [hch]
            cases htu : truthyStr ((h0 :: hrest).getD
                (gw.choose year np % (h0 :: hrest).length) ⟨none⟩).uid with
            | none =>
              have htu' : truthyStr ((h0 :: hrest).getD
                  (gw'.choose year np % (h0 :: hrest).length) ⟨none⟩).uid =
                    none := by
                rw [hchn]
                exact htu
              rw [procPapers_hitFalsy gw' lpq mh year rest uids found htv hf'
                  htu',
                procPapers_hitFalsy gw lpq mh year rest uids found htv hf htu,
                ih]
            | some uid =>
              have htu' : truthyStr ((h0 :: hrest).getD
                  (gw'.choose year np % (h0 :: hrest).length) ⟨none⟩).uid =
                    some uid := by
                rw [hchn]
                exact htu
              by_cases hge : found + 1 ≥ mh
              · rw [procPapers_hitDone gw' lpq mh year rest uids found htv hf'
                    htu' hge,
                  procPapers_hitDone gw lpq mh year rest uids found htv hf htu
                    hge]
              · rw [procPapers_hitCont gw' lpq mh year rest uids found htv hf'
                    htu' hge,
                  procPapers_hitCont gw lpq mh year rest uids found htv hf htu
                    hge, ih]
      · rw [procPapers_findEmpty gw' lpq mh year rest uids found htv hok,
          procPapers_findErr gw lpq mh year rest uids found htv herr, ih]

theorem procYears_congr (gw gw' : Gateway) (lpq mh : Int)
    (hfn : gw'.facetNewspaper = gw.facetNewspaper)
    (hch : gw'.choose = gw.choose)
    (hfind : ∀ y np l, gw'.find y np l = gw.find y np l ∨
      (gw.find y np l = .err ∧ gw'.find y np l = .ok [])) :
    ∀ (ys : List Bucket) (uids : List String) (found : Int),
      procYears gw' lpq mh ys uids found =
      procYears gw lpq mh ys uids found := by
  intro ys
  induction ys with
  | nil => intro uids found; rw [procYears_nil, procYears_nil]
  | cons b rest ih =>
    intro uids found
    cases htv : truthyStr b.value with
    | none =>
      rw [procYears_skip gw' lpq mh rest uids found htv,
        procYears_skip gw lpq mh rest uids found htv, ih]
    | some year =>
      have hfny : gw'.facetNewspaper year = gw.facetNewspaper year := by
        rw [hfn]
      cases hfnr : gw.facetNewspaper year with
      | err =>
        rw [procYears_fnErr gw' lpq mh rest uids found htv (by rw [hfny, hfnr]),
          procYears_fnErr gw lpq mh rest uids found htv hfnr]
      | ok papers =>
        by_cases hne : papers = []
        · subst hne
          rw [procYears_fnEmpty gw' lpq mh rest uids found htv
              (by rw [hfny, hfnr]),
            procYears_fnEmpty gw lpq mh rest uids found htv hfnr, ih]
        · have hpp := procPapers_congr gw gw' lpq mh year hch hfind papers
            uids found
          rcases hp : procPapers gw lpq mh year papers uids found
            with ⟨pout, csP⟩
          rw [hp] at hpp
          cases pout with
          | done us' =>
            rw [procYears_fnDone gw' lpq mh rest uids found htv
                (by rw [hfny, hfnr]) hne hpp,
              procYears_fnDone gw lpq mh rest uids found htv hfnr hne hp]
          | cont us' f' =>
            rw [procYears_fnCont gw' lpq mh rest uids found htv
                (by rw [hfny, hfnr]) hne hpp,
              procYears_fnCont gw lpq mh rest uids found htv hfnr hne hp, ih]
          | err =>
            rw [procYears_fnErrOut gw' lpq mh rest uids found htv
                (by rw [hfny, hfnr]) hne hpp,
              procYears_fnErrOut gw lpq mh rest uids found htv hfnr hne hp]

theorem procPapers_ne_err (gw : Gateway) (lpq mh : Int) (year : String) :
    ∀ (papers : List Bucket) (uids : List String) (found : Int),
      (procPapers gw lpq mh year papers uids found).1 ≠ .err := by
  intro papers
  induction papers with
  | nil =>
    intro uids found h
    rw [procPapers_nil] at h
    exact LoopOut.noConfusion h
  | cons p rest ih =>
    intro uids found h
    cases htv : truthyStr p.value with
    | none =>
      rw [procPapers_skip gw lpq mh year rest uids found htv] at h
      exact ih uids found h
    | some np =>
      cases hf : gw.find year np lpq with
      | err =>
        rw [procPapers_findErr gw lpq mh year rest uids found htv hf] at h
        exact ih uids found h
      | ok hits =>
        cases hits with
        | nil =>
          rw [procPapers_findEmpty gw lpq mh year rest uids found htv hf] at h
          exact ih uids found h
        | cons h0 hrest =>
          cases htu : truthyStr ((h0 :: hrest).getD
              (gw.choose year np % (h0 :: hrest).length) ⟨none⟩).uid with
          | none =>
            rw [procPapers_hitFalsy gw lpq mh year rest uids found htv hf
              htu] at h
            exact ih uids found h
          | some uid =>
            by_cases hge : found + 1 ≥ mh
            · rw [procPapers_hitDone gw lpq mh year rest uids found htv hf htu
                hge] at h
              exact LoopOut.noConfusion h
            · rw [procPapers_hitCont gw lpq mh year rest uids found htv hf htu
                hge] at h
              exact ih (uids ++ [uid]) (found + 1) h

theorem procYears_no_err (gw : Gateway) (lpq mh : Int)
    (hok : ∀ y, gw.facetNewspaper y ≠ .err) :
    ∀ (ys : List Bucket) (uids : List String) (found : Int),
      (procYears gw lpq mh ys uids found).1 ≠ .err := by
  intro ys
  induction ys with
  | nil =>
    intro uids found h
    rw [procYears_nil] at h
    exact LoopOut.noConfusion h
  | cons b rest ih =>
    intro uids found h
    cases htv : truthyStr b.value with
    | none =>
      rw [procYears_skip gw lpq mh rest uids found htv] at h
      exact ih uids found h
    | some year =>
      cases hfnr : gw.facetNewspaper year with
      | err => exact hok year hfnr
      | ok papers =>
        by_cases hne : papers = []
        · subst hne
          rw [procYears_fnEmpty gw lpq mh rest uids found htv hfnr] at h
          exact ih uids found h
        · rcases hp : procPapers gw lpq mh year papers uids found
            with ⟨pout, csP⟩
          cases pout with
          | done us' =>
            rw [procYears_fnDone gw lpq mh rest uids found htv hfnr hne hp] at h
            exact LoopOut.noConfusion h
          | cont us' f' =>
            rw [procYears_fnCont gw lpq mh rest uids found htv hfnr hne hp] at h
            exact ih us' f' h
          | err =>
            have := procPapers_ne_err gw lpq mh year papers uids found
            rw [hp] at this
            exact this rfl

/-- C1 amended: a query error raised by a `find` call is caught, logged and
treated as zero hits for that cell — replacing any set of erroring `find`
cells by empty results leaves the sampler's outcome and call trace
unchanged — and no query error raised by a `find` call ever aborts the
keyword: when the year facet and every newspaper facet call succeed, the
sampler never propagates a query error.  (Errors on the facet calls, by
contrast, do propagate: the year facet error is re-raised and the newspaper
facet call is unguarded.) -/
theorem find_error_treated_as_zero_hits (gw gw' : Gateway) (lpq mh : Int)
    (hfy : gw'.facetYear = gw.facetYear)
    (hfn : gw'.facetNewspaper = gw.facetNewspaper)
    (hch : gw'.choose = gw.choose)
    (hfind : ∀ y np l, gw'.find y np l = gw.find y np l ∨
      (gw.find y np l = .err ∧ gw'.find y np l = .ok [])) :
    sample_impresso_uids gw' lpq mh = sample_impresso_uids gw lpq mh ∧
    ((∀ y, gw.facetNewspaper y ≠ .err) → gw.facetYear ≠ .err →
      (sample_impresso_uids gw lpq mh).1 ≠ .error .queryError) := by
  constructor
  · by_cases hc : 0 < lpq ∧ lpq ≤ 100
    · cases hyr : gw.facetYear with
      | err =>
        rw [sample_fyErr gw' lpq mh hc (by rw [hfy, hyr]),
          sample_fyErr gw lpq mh hc hyr]
      | ok yb =>
        by_cases hne : yb = []
        · subst hne
          rw [sample_fyEmpty gw' lpq mh hc (by rw [hfy, hyr]),
            sample_fyEmpty gw lpq mh hc hyr]
        · rw [sample_fyOk gw' lpq mh hc (by rw [hfy, hyr]) hne,
            sample_fyOk gw lpq mh hc hyr hne,
            procYears_congr gw gw' lpq mh hfn hch hfind]
    · rw [sample_invalid gw' lpq mh hc, sample_invalid gw lpq mh hc]
  · intro hfnok hfyok
    by_cases hc : 0 < lpq ∧ lpq ≤ 100
    · cases hyr : gw.facetYear with
      | err => exact absurd hyr hfyok
      | ok yb =>
        by_cases hne : yb = []
        · subst hne
          rw [sample_fyEmpty gw lpq mh hc hyr]
          simp
        · rw [sample_fyOk gw lpq mh hc hyr hne]
          rcases hp : procYears gw lpq mh (List.insertionSort bucketLE yb) [] 0
            with ⟨pout, cs⟩
          cases pout with
          | done us => simp
          | cont us f => simp
          | err =>
            have := procYears_no_err gw lpq mh hfnok
              (List.insertionSort bucketLE yb) [] 0
            rw [hp] at this
            exact absurd rfl this
    · rw [sample_invalid gw lpq mh hc]
      simp

theorem find_error_treated_as_zero_hits_witness :
    sample_impresso_uids gwFindErrPatched 20 20 =
      sample_impresso_uids gwFindErr 20 20 ∧
    (sample_impresso_uids gwFindErr 20 20).1 ≠ .error .queryError :=
  ⟨(find_error_treated_as_zero_hits gwFindErr gwFindErrPatched 20 20 rfl rfl
      rfl (fun y np l => by
        by_cases h : np = "a"
        · exact Or.inr (by simp [gwFindErr, gwFindErrPatched, h])
        · exact Or.inl (by simp [gwFindErr, gwFindErrPatched, h]))).1,
   (find_error_treated_as_zero_hits gwFindErr gwFindErrPatched 20 20 rfl rfl
      rfl (fun y np l => by
        by_cases h : np = "a"
        · exact Or.inr (by simp [gwFindErr, gwFindErrPatched, h])
        · exact Or.inl (by simp [gwFindErr, gwFindErrPatched, h]))).2
      (fun y => by simp [gwFindErr]) (by simp [gwFindErr])⟩

theorem dictLookup_dictInsert_self :
    ∀ (res : CampaignResult) (k : String) (v : List String),
      dictLookup (dictInsert res k v) k = some v := by
  intro res k v
  induction res with
  | nil => rw [dictInsert, dictLookup, if_pos rfl]
  | cons kv rest ih =>
    rcases kv with ⟨k', v'⟩
    by_cases h : k' = k
    · subst h
      rw [dictInsert, if_pos rfl, dictLookup, if_pos rfl]
    · rw [dictInsert, if_neg h, dictLookup, if_neg h]
      exact ih

theorem dictLookup_dictInsert_ne :
    ∀ (res : CampaignResult) (k k' : String) (v : List String), k ≠ k' →
      dictLookup (dictInsert res k v) k' = dictLookup res k' := by
  intro res k k' v hk
  induction res with
  | nil =>
    simp only [dictInsert, dictLookup, if_neg hk]
  | cons kv rest ih =>
    rcases kv with ⟨k'', v''⟩
    by_cases h : k'' = k
    · subst h
      rw [dictInsert, if_pos rfl, dictLookup, if_neg hk, dictLookup,
        if_neg hk]
    · rw [dictInsert, if_neg h, dictLookup, dictLookup]
      by_cases h2 : k'' = k'
      · rw [if_pos h2, if_pos h2]
      · rw [if_neg h2, if_neg h2]
        exact ih

theorem dictLookup_dictInsert_pres (res : CampaignResult) (k : String)
    (v : List String) (a : String) (h : ∃ w, dictLookup res a = some w) :
    ∃ w, dictLookup (dictInsert res k v) a = some w := by
  by_cases hk : k = a
  · subst hk
    exact ⟨v, dictLookup_dictInsert_self res k v⟩
  · rw [dictLookup_dictInsert_ne res k a v hk]
    exact h

theorem run_nil (sampler : String → Except Unit (List String))
    (res : CampaignResult) :
    run_all_newsagencies sampler [] res = ⟨res, [], []⟩ := rfl

theorem run_skip (sampler : String → Except Unit (List String)) (a : String)
    (rest : List String) (res : CampaignResult)
    (h : skipDone res a = true) :
    run_all_newsagencies sampler (a :: rest) res =
      run_all_newsagencies sampler rest res := by
  rw [run_all_newsagencies, if_pos h]

theorem run_proc_ok (sampler : String → Except Unit (List String))
    (a : String) (rest : List String) (res : CampaignResult)
    (ids : List String) (h : skipDone res a = false)
    (hs : sampler a = .ok ids) :
    run_all_newsagencies sampler (a :: rest) res =
      ⟨(run_all_newsagencies sampler rest (dictInsert res a ids)).results,
       a :: (run_all_newsagencies sampler rest (dictInsert res a ids)).invoked,
       dictInsert res a ids ::
         (run_all_newsagencies sampler rest (dictInsert res a ids)).writes⟩ := by
  rw [run_all_newsagencies, if_neg (by rw [h]; exact Bool.false_ne_true)]
  dsimp only
  rw [hs]

theorem run_proc_err (sampler : String → Except Unit (List String))
    (a : String) (rest : List String) (res : CampaignResult)
    (h : skipDone res a = false) (hs : sampler a = .error ()) :
    run_all_newsagencies sampler (a :: rest) res =
      ⟨(run_all_newsagencies sampler rest (dictInsert res a [])).results,
       a :: (run_all_newsagencies sampler rest (dictInsert res a [])).invoked,
       dictInsert res a [] ::
         (run_all_newsagencies sampler rest (dictInsert res a [])).writes⟩ := by
  rw [run_all_newsagencies, if_neg (by rw [h]; exact Bool.false_ne_true)]
  dsimp only
  rw [hs]

theorem skipDone_false_of_not (res : CampaignResult) (a : String)
    (h : ¬skipDone res a = true) : skipDone res a = false := by
  cases hsd : skipDone res a
  · rfl
  · exact absurd hsd h

theorem run_preserves_presence (sampler : String → Except Unit (List String)) :
    ∀ (agencies : List String) (res : CampaignResult) (a : String),
      (∃ w, dictLookup res a = some w) →
      ∃ w, dictLookup (run_all_newsagencies sampler agencies res).results a =
        some w := by
  intro agencies
  induction agencies with
  | nil => intro res a h; exact h
  | cons b rest ih =>
    intro res a h
    by_cases hskip : skipDone res b = true
    · rw [run_skip sampler b rest res hskip]
      exact ih res a h
    · have hskip' := skipDone_false_of_not res b hskip
      cases hs : sampler b with
      | ok ids =>
        rw [run_proc_ok sampler b rest res ids hskip' hs]
        exact ih (dictInsert res b ids) a
          (dictLookup_dictInsert_pres res b ids a h)
      | error e =>
        cases e
        rw [run_proc_err sampler b rest res hskip' hs]
        exact ih (dictInsert res b []) a
          (dictLookup_dictInsert_pres res b [] a h)

theorem run_total (sampler : String → Except Unit (List String)) :
    ∀ (agencies : List String) (res : CampaignResult) (a : String),
      a ∈ agencies →
      ∃ w, dictLookup (run_all_newsagencies sampler agencies res).results a =
        some w := by
  intro agencies
  induction agencies with
  | nil => intro res a h; exact absurd h (List.not_mem_nil a)
  | cons b rest ih =>
    intro res a h
    rcases List.mem_cons.1 h with rfl | hmem
    · by_cases hskip : skipDone res a = true
      · have hpres : ∃ w, dictLookup res a = some w := by
          unfold skipDone at hskip
          cases hl : dictLookup res a with
          | none => rw [hl] at hskip; exact Bool.noConfusion hskip
          | some v => exact ⟨v, rfl⟩
        rw [run_skip sampler a rest res hskip]
        exact run_preserves_presence sampler rest res a hpres
      · have hskip' := skipDone_false_of_not res a hskip
        cases hs : sampler a with
        | ok ids =>
          rw [run_proc_ok sampler a rest res ids hskip' hs]
          exact run_preserves_presence sampler rest (dictInsert res a ids) a
            ⟨ids, dictLookup_dictInsert_self res a ids⟩
        | error e =>
          cases e
          rw [run_proc_err sampler a rest res hskip' hs]
          exact run_preserves_presence sampler rest (dictInsert res a []) a
            ⟨[], dictLookup_dictInsert_self res a []⟩
    · by_cases hskip : skipDone res b = true
      · rw [run_skip sampler b rest res hskip]
        exact ih res a hmem
      · have hskip' := skipDone_false_of_not res b hskip
        cases hs : sampler b with
        | ok ids =>
          rw [run_proc_ok sampler b rest res ids hskip' hs]
          exact ih (dictInsert res b ids) a hmem
        | error e =>
          cases e
          rw [run_proc_err sampler b rest res hskip' hs]
          exact ih (dictInsert res b []) a hmem

/-- C5: a keyword already mapped to a non-empty UID list in the loaded
checkpoint is skipped entirely on a re-run: the sampler is never invoked for
it (so no gateway calls are made for it) and its entry is left unchanged. -/
theorem resume_skips_completed_keyword
    (sampler : String → Except Unit (List String)) (K : String)
    (v : List String) (hne : v ≠ []) :
    ∀ (agencies : List String) (init : CampaignResult),
      dictLookup init K = some v →
      K ∉ (run_all_newsagencies sampler agencies init).invoked ∧
      dictLookup (run_all_newsagencies sampler agencies init).results K =
        some v := by
  intro agencies
  induction agencies with
  | nil => intro init hv; exact ⟨List.not_mem_nil K, hv⟩
  | cons b rest ih =>
    intro init hv
    by_cases hb : b = K
    · subst hb
      have hskip : skipDone init b = true := by
        unfold skipDone
        rw [hv]
        simpa using hne
      rw [run_skip sampler b rest init hskip]
      exact ih init hv
    · by_cases hskip : skipDone init b = true
      · rw [run_skip sampler b rest init hskip]
        exact ih init hv
      · have hskip' := skipDone_false_of_not init b hskip
        cases hs : sampler b with
        | ok ids =>
          rw [run_proc_ok sampler b rest init ids hskip' hs]
          have hv' : dictLookup (dictInsert init b ids) K = some v := by
            rw [dictLookup_dictInsert_ne init b K ids hb]
            exact hv
          obtain ⟨hnotin, hres⟩ := ih (dictInsert init b ids) hv'
          refine ⟨?_, hres⟩
          intro hmem
          rcases List.mem_cons.1 hmem with heq | hmem'
          · exact hb heq.symm
          · exact hnotin hmem'
        | error e =>
          cases e
          rw [run_proc_err sampler b rest init hskip' hs]
          have hv' : dictLookup (dictInsert init b []) K = some v := by
            rw [dictLookup_dictInsert_ne init b K [] hb]
            exact hv
          obtain ⟨hnotin, hres⟩ := ih (dictInsert init b []) hv'
          refine ⟨?_, hres⟩
          intro hmem
          rcases List.mem_cons.1 hmem with heq | hmem'
          · exact hb heq.symm
          · exact hnotin hmem'

theorem resume_skips_completed_keyword_witness :
    "K" ∉ (run_all_newsagencies samplerRaisesOnK ["K", "L"]
      [("K", ["u"])]).invoked ∧
    dictLookup (run_all_newsagencies samplerRaisesOnK ["K", "L"]
      [("K", ["u"])]).results "K" = some ["u"] :=
  resume_skips_completed_keyword samplerRaisesOnK "K" ["u"] (by decide)
    ["K", "L"] [("K", ["u"])] (by decide)

/-- C6: when the sampler raises for keyword `K` (and `K` was not already
done), the runner records `K ↦ []`, persists the accumulated dictionary as
the next checkpoint snapshot, and continues with the remaining keywords
exactly as a fresh run over them; every keyword of the campaign ends up with
an entry in the final results (one keyword's failure never aborts the
campaign). -/
theorem sampler_failure_recorded
    (sampler : String → Except Unit (List String)) (K : String)
    (rest : List String) (res : CampaignResult)
    (hskip : skipDone res K = false) (herr : sampler K = .error ()) :
    run_all_newsagencies sampler (K :: rest) res =
      ⟨(run_all_newsagencies sampler rest (dictInsert res K [])).results,
       K :: (run_all_newsagencies sampler rest (dictInsert res K [])).invoked,
       dictInsert res K [] ::
         (run_all_newsagencies sampler rest (dictInsert res K [])).writes⟩ ∧
    dictLookup (dictInsert res K []) K = some [] ∧
    (∀ a ∈ K :: rest,
      ∃ w, dictLookup
        (run_all_newsagencies sampler (K :: rest) res).results a = some w) :=
  ⟨run_proc_err sampler K rest res hskip herr,
   dictLookup_dictInsert_self res K [],
   fun a ha => run_total sampler (K :: rest) res a ha⟩

theorem sampler_failure_recorded_witness :
    (run_all_newsagencies samplerRaisesOnK ["K", "L"] [] =
      ⟨(run_all_newsagencies samplerRaisesOnK ["L"]
          (dictInsert [] "K" [])).results,
       "K" :: (run_all_newsagencies samplerRaisesOnK ["L"]
          (dictInsert [] "K" [])).invoked,
       dictInsert [] "K" [] ::
         (run_all_newsagencies samplerRaisesOnK ["L"]
          (dictInsert [] "K" [])).writes⟩) ∧
    dictLookup (dictInsert [] "K" []) "K" = some [] ∧
    (∀ a ∈ ["K", "L"],
      ∃ w, dictLookup
        (run_all_newsagencies samplerRaisesOnK ["K", "L"] []).results a =
          some w) :=
  sampler_failure_recorded samplerRaisesOnK "K" ["L"] [] rfl (by decide)

theorem range_map_getLast {α : Type} (f : Nat → α) (n : Nat) :
    ((List.range (n + 1)).map f).getLast? = some (f n) := by
  rw [List.range_succ, List.map_append, List.map_cons, List.map_nil]
  exact List.getLast?_concat _

theorem persistStates_getLast (old new : List Char) :
    (persistStates old new).getLast? = some new := by
  rw [persistStates, List.range_succ, List.map_append, List.map_cons,
    List.map_nil, List.take_length, ← List.cons_append]
  exact List.getLast?_concat _

theorem nil_mem_persistStates (old new : List Char) :
    [] ∈ persistStates old new := by
  rw [persistStates]
  apply List.mem_cons_of_mem
  apply List.mem_map.2
  exact ⟨0, List.mem_range.2 (Nat.succ_pos _), List.take_zero new⟩

theorem run_writes_length (sampler : String → Except Unit (List String)) :
    ∀ (agencies : List String) (res : CampaignResult),
      (run_all_newsagencies sampler agencies res).writes.length =
      (run_all_newsagencies sampler agencies res).invoked.length := by
  intro agencies
  induction agencies with
  | nil => intro res; rfl
  | cons b rest ih =>
    intro res
    by_cases hskip : skipDone res b = true
    · rw [run_skip sampler b rest res hskip]
      exact ih res
    · have hskip' := skipDone_false_of_not res b hskip
      cases hs : sampler b with
      | ok ids =>
        rw [run_proc_ok sampler b rest res ids hskip' hs]
        dsimp only
        rw [List.length_cons, List.length_cons, ih]
      | error e =>
        cases e
        rw [run_proc_err sampler b rest res hskip' hs]
        dsimp only
        rw [List.length_cons, List.length_cons, ih]

/-- C7 counterexample: the checkpoint write is not atomic.  During one
`open(out_path, "w")` + `json.dump` rewrite from previous content `old` to
new content `new`, the on-disk states a crash can leave behind include one
(the truncated file) that is neither the previous nor the new complete
content — here with `old` the characters of `"A"` and `new` those of
`"BC"`. -/
theorem checkpoint_write_not_atomic :
    ∃ s ∈ persistStates ['A'] ['B', 'C'], s ≠ ['A'] ∧ s ≠ ['B', 'C'] := by
  decide

/-- C7 amended: after every processed keyword (the sampler succeeding or its
failure recorded as an empty list) the runner writes one full checkpoint
snapshot — one write per sampler invocation — by truncating and rewriting
the file in place; a completed write leaves exactly the new content, but the
write is not atomic: a crash mid-write can leave a truncated or
partially-written file that is neither the previous nor the new complete
content. -/
theorem checkpoint_rewritten_per_keyword
    (sampler : String → Except Unit (List String))
    (agencies : List String) (res : CampaignResult) (old new : List Char)
    (hold : old ≠ []) (hnew : new ≠ []) :
    (run_all_newsagencies sampler agencies res).writes.length =
      (run_all_newsagencies sampler agencies res).invoked.length ∧
    (persistStates old new).getLast? = some new ∧
    ∃ s ∈ persistStates old new, s ≠ old ∧ s ≠ new :=
  ⟨run_writes_length sampler agencies res,
   persistStates_getLast old new,
   ⟨[], nil_mem_persistStates old new,
    fun h => hold h.symm, fun h => hnew h.symm⟩⟩

theorem checkpoint_rewritten_per_keyword_witness :
    (run_all_newsagencies samplerRaisesOnK ["K"] []).writes.length =
      (run_all_newsagencies samplerRaisesOnK ["K"] []).invoked.length ∧
    (persistStates ['o'] ['n', 'w']).getLast? = some ['n', 'w'] ∧
    (∃ s ∈ persistStates ['o'] ['n', 'w'], s ≠ ['o'] ∧ s ≠ ['n', 'w']) :=
  checkpoint_rewritten_per_keyword samplerRaisesOnK ["K"] [] ['o'] ['n', 'w']
    (by decide) (by decide)

theorem truthyVals_cons_none {p : Bucket} (rest : List Bucket)
    (h : truthyStr p.value = none) :
    truthyVals (p :: rest) = truthyVals rest := by
  simp only [truthyVals, List.filterMap_cons, h]

theorem truthyVals_cons_some {p : Bucket} (rest : List Bucket) {s : String}
    (h : truthyStr p.value = some s) :
    truthyVals (p :: rest) = s :: truthyVals rest := by
  simp only [truthyVals, List.filterMap_cons, h]

theorem npYears_nil : npYears [] = [] := rfl

theorem npYears_cons_fy (tr : List Call) :
    npYears (Call.facetYear :: tr) = npYears tr := by
  simp only [npYears, List.filterMap_cons]

theorem npYears_cons_fn (y : String) (tr : List Call) :
    npYears (Call.facetNewspaper y :: tr) = y :: npYears tr := by
  simp only [npYears, List.filterMap_cons]

theorem npYears_cons_find (y np : String) (tr : List Call) :
    npYears (Call.find y np :: tr) = npYears tr := by
  simp only [npYears, List.filterMap_cons]

theorem npYears_append (l tr : List Call) :
    npYears (l ++ tr) = npYears l ++ npYears tr := by
  simp only [npYears, List.filterMap_append]

theorem findNpsFor_nil (y : String) : findNpsFor y [] = [] := rfl

theorem findNpsFor_cons_fy (y : String) (tr : List Call) :
    findNpsFor y (Call.facetYear :: tr) = findNpsFor y tr := by
  simp only [findNpsFor, List.filterMap_cons]

theorem findNpsFor_cons_fn (y y' : String) (tr : List Call) :
    findNpsFor y (Call.facetNewspaper y' :: tr) = findNpsFor y tr := by
  simp only [findNpsFor, List.filterMap_cons]

theorem findNpsFor_cons_find_self (y np : String) (tr : List Call) :
    findNpsFor y (Call.find y np :: tr) = np :: findNpsFor y tr := by
  simp only [findNpsFor, List.filterMap_cons, if_true]

theorem findNpsFor_cons_find_ne {y y' : String} (np : String)
    (h : y' ≠ y) (tr : List Call) :
    findNpsFor y (Call.find y' np :: tr) = findNpsFor y tr := by
  simp only [findNpsFor, List.filterMap_cons, if_neg h]

theorem findNpsFor_append (y : String) (l tr : List Call) :
    findNpsFor y (l ++ tr) = findNpsFor y l ++ findNpsFor y tr := by
  simp only [findNpsFor, List.filterMap_append]

theorem procPapers_calls (gw : Gateway) (lpq mh : Int) (year : String) :
    ∀ (papers : List Bucket) (uids : List String) (found : Int),
      ∀ c ∈ (procPapers gw lpq mh year papers uids found).2,
        ∃ np, c = Call.find year np := by
  intro papers
  induction papers with
  | nil =>
    intro uids found c hc
    rw [procPapers_nil] at hc
    exact absurd hc (List.not_mem_nil c)
  | cons p rest ih =>
    intro uids found c hc
    cases htv : truthyStr p.value with
    | none =>
      rw [procPapers_skip gw lpq mh year rest uids found htv] at hc
      exact ih uids found c hc
    | some np =>
      cases hf : gw.find year np lpq with
      | err =>
        rw [procPapers_findErr gw lpq mh year rest uids found htv hf] at hc
        rcases List.mem_cons.1 hc with rfl | hc'
        · exact ⟨np, rfl⟩
        · exact ih uids found c hc'
      | ok hits =>
        cases hits with
        | nil =>
          rw [procPapers_findEmpty gw lpq mh year rest uids found htv hf] at hc
          rcases List.mem_cons.1 hc with rfl | hc'
          · exact ⟨np, rfl⟩
          · exact ih uids found c hc'
        | cons h0 hrest =>
          cases htu : truthyStr ((h0 :: hrest).getD
              (gw.choose year np % (h0 :: hrest).length) ⟨none⟩).uid with
          | none =>
            rw [procPapers_hitFalsy gw lpq mh year rest uids found htv hf
              htu] at hc
            rcases List.mem_cons.1 hc with rfl | hc'
            · exact ⟨np, rfl⟩
            · exact ih uids found c hc'
          | some uid =>
            by_cases hge : found + 1 ≥ mh
            · rw [procPapers_hitDone gw lpq mh year rest uids found htv hf htu
                hge] at hc
              rcases List.mem_cons.1 hc with rfl | hc'
              · exact ⟨np, rfl⟩
              · exact absurd hc' (List.not_mem_nil c)
            · rw [procPapers_hitCont gw lpq mh year rest uids found htv hf htu
                hge] at hc
              rcases List.mem_cons.1 hc with rfl | hc'
              · exact ⟨np, rfl⟩
              · exact ih (uids ++ [uid]) (found + 1) c hc'

theorem npYears_procPapers (gw : Gateway) (lpq mh : Int) (year : String)
    (papers : List Bucket) (uids : List String) (found : Int) :
    npYears (procPapers gw lpq mh year papers uids found).2 = [] := by
  rw [npYears, List.filterMap_eq_nil_iff]
  intro c hc
  obtain ⟨np, rfl⟩ := procPapers_calls gw lpq mh year papers uids found c hc
  rfl

theorem findNpsFor_procPapers_ne (gw : Gateway) (lpq mh : Int) (year : String)
    {y : String} (hy : y ≠ year) (papers : List Bucket) (uids : List String)
    (found : Int) :
    findNpsFor y (procPapers gw lpq mh year papers uids found).2 = [] := by
  rw [findNpsFor, List.filterMap_eq_nil_iff]
  intro c hc
  obtain ⟨np, rfl⟩ := procPapers_calls gw lpq mh year papers uids found c hc
  show (if year = y then some np else none) = none
  exact if_neg (fun h => hy h.symm)

theorem findNpsFor_procPapers (gw : Gateway) (lpq mh : Int) (year : String) :
    ∀ (papers : List Bucket) (uids : List String) (found : Int),
      findNpsFor year (procPapers gw lpq mh year papers uids found).2 <+:
        truthyVals papers := by
  intro papers
  induction papers with
  | nil =>
    intro uids found
    rw [procPapers_nil]
    exact List.nil_prefix
  | cons p rest ih =>
    intro uids found
    cases htv : truthyStr p.value with
    | none =>
      rw [procPapers_skip gw lpq mh year rest uids found htv,
        truthyVals_cons_none rest htv]
      exact ih uids found
    | some np =>
      rw [truthyVals_cons_some rest htv]
      cases hf : gw.find year np lpq with
      | err =>
        rw [procPapers_findErr gw lpq mh year rest uids found htv hf]
        rw [findNpsFor_cons_find_self]
        exact List.cons_prefix_cons.2 ⟨rfl, ih uids found⟩
      | ok hits =>
        cases hits with
        | nil =>
          rw [procPapers_findEmpty gw lpq mh year rest uids found htv hf]
          rw [findNpsFor_cons_find_self]
          exact List.cons_prefix_cons.2 ⟨rfl, ih uids found⟩
        | cons h0 hrest =>
          cases htu : truthyStr ((h0 :: hrest).getD
              (gw.choose year np % (h0 :: hrest).length) ⟨none⟩).uid with
          | none =>
            rw [procPapers_hitFalsy gw lpq mh year rest uids found htv hf htu]
            rw [findNpsFor_cons_find_self]
            exact List.cons_prefix_cons.2 ⟨rfl, ih uids found⟩
          | some uid =>
            by_cases hge : found + 1 ≥ mh
            · rw [procPapers_hitDone gw lpq mh year rest uids found htv hf htu
                hge]
              rw [findNpsFor_cons_find_self, findNpsFor_nil]
              exact List.cons_prefix_cons.2 ⟨rfl, List.nil_prefix⟩
            · rw [procPapers_hitCont gw lpq mh year rest uids found htv hf htu
                hge]
              rw [findNpsFor_cons_find_self]
              exact List.cons_prefix_cons.2 ⟨rfl, ih (uids ++ [uid]) (found + 1)⟩

theorem procYears_findNpsFor_nil (gw : Gateway) (lpq mh : Int) (y : String) :
    ∀ (ys : List Bucket) (uids : List String) (found : Int),
      y ∉ npYears (procYears gw lpq mh ys uids found).2 →
      findNpsFor y (procYears gw lpq mh ys uids found).2 = [] := by
  intro ys
  induction ys with
  | nil =>
    intro uids found h
    rw [procYears_nil]
    exact findNpsFor_nil y
  | cons b rest ih =>
    intro uids found h
    cases htv : truthyStr b.value with
    | none =>
      rw [procYears_skip gw lpq mh rest uids found htv] at h ⊢
      exact ih uids found h
    | some year =>
      cases hfnr : gw.facetNewspaper year with
      | err =>
        rw [procYears_fnErr gw lpq mh rest uids found htv hfnr]
        rw [findNpsFor_cons_fn]
        exact findNpsFor_nil y
      | ok papers =>
        by_cases hne : papers = []
        · subst hne
          rcases hrec : procYears gw lpq mh rest uids found with ⟨out, csR⟩
          rw [procYears_fnEmpty gw lpq mh rest uids found htv hfnr, hrec]
            at h ⊢
          dsimp only at h ⊢
          rw [npYears_cons_fn] at h
          rw [findNpsFor_cons_fn]
          have hyR : y ∉ npYears csR := fun hm =>
            h (List.mem_cons_of_mem _ hm)
          have ihh := ih uids found
          rw [hrec] at ihh
          exact ihh hyR
        · rcases hp : procPapers gw lpq mh year papers uids found
            with ⟨pout, csP⟩
          have hnpP : npYears csP = [] := by
            have := npYears_procPapers gw lpq mh year papers uids found
            rw [hp] at this
            exact this
          cases pout with
          | done us' =>
            rw [procYears_fnDone gw lpq mh rest uids found htv hfnr hne hp]
              at h ⊢
            rw [npYears_cons_fn] at h
            have hyy : y ≠ year := fun he =>
              h (by rw [he]; exact List.mem_cons_self _ _)
            rw [findNpsFor_cons_fn]
            have := findNpsFor_procPapers_ne gw lpq mh year hyy papers uids
              found
            rw [hp] at this
            exact this
          | cont us' f' =>
            rcases hrec : procYears gw lpq mh rest us' f' with ⟨out, csR⟩
            rw [procYears_fnCont gw lpq mh rest uids found htv hfnr hne hp,
              hrec] at h ⊢
            dsimp only at h ⊢
            rw [npYears_cons_fn, npYears_append, hnpP, List.nil_append] at h
            rw [findNpsFor_cons_fn, findNpsFor_append]
            have hyy : y ≠ year := fun he =>
              h (by rw [he]; exact List.mem_cons_self _ _)
            have hyR : y ∉ npYears csR := fun hm =>
              h (List.mem_cons_of_mem _ hm)
            have h1 : findNpsFor y csP = [] := by
              have := findNpsFor_procPapers_ne gw lpq mh year hyy papers uids
                found
              rw [hp] at this
              exact this
            have h2 : findNpsFor y csR = [] := by
              have ihh := ih us' f'
              rw [hrec] at ihh
              exact ihh hyR
            rw [h1, h2]
            rfl
          | err =>
            rw [procYears_fnErrOut gw lpq mh rest uids found htv hfnr hne hp]
              at h ⊢
            rw [npYears_cons_fn] at h
            have hyy : y ≠ year := fun he =>
              h (by rw [he]; exact List.mem_cons_self _ _)
            rw [findNpsFor_cons_fn]
            have := findNpsFor_procPapers_ne gw lpq mh year hyy papers uids
              found
            rw [hp] at this
            exact this

theorem procYears_npYears (gw : Gateway) (lpq mh : Int) :
    ∀ (ys : List Bucket) (uids : List String) (found : Int),
      npYears (procYears gw lpq mh ys uids found).2 <+: truthyVals ys := by
  intro ys
  induction ys with
  | nil =>
    intro uids found
    rw [procYears_nil]
    exact List.nil_prefix
  | cons b rest ih =>
    intro uids found
    cases htv : truthyStr b.value with
    | none =>
      rw [procYears_skip gw lpq mh rest uids found htv,
        truthyVals_cons_none rest htv]
      exact ih uids found
    | some year =>
      rw [truthyVals_cons_some rest htv]
      cases hfnr : gw.facetNewspaper year with
      | err =>
        rw [procYears_fnErr gw lpq mh rest uids found htv hfnr]
        rw [npYears_cons_fn, npYears_nil]
        exact List.cons_prefix_cons.2 ⟨rfl, List.nil_prefix⟩
      | ok papers =>
        by_cases hne : papers = []
        · subst hne
          rcases hrec : procYears gw lpq mh rest uids found with ⟨out, csR⟩
          rw [procYears_fnEmpty gw lpq mh rest uids found htv hfnr, hrec]
          dsimp only
          rw [npYears_cons_fn]
          have ihh := ih uids found
          rw [hrec] at ihh
          exact List.cons_prefix_cons.2 ⟨rfl, ihh⟩
        · rcases hp : procPapers gw lpq mh year papers uids found
            with ⟨pout, csP⟩
          have hnpP : npYears csP = [] := by
            have := npYears_procPapers gw lpq mh year papers uids found
            rw [hp] at this
            exact this
          cases pout with
          | done us' =>
            rw [procYears_fnDone gw lpq mh rest uids found htv hfnr hne hp]
            rw [npYears_cons_fn, hnpP]
            exact List.cons_prefix_cons.2 ⟨rfl, List.nil_prefix⟩
          | cont us' f' =>
            rcases hrec : procYears gw lpq mh rest us' f' with ⟨out, csR⟩
            rw [procYears_fnCont gw lpq mh rest uids found htv hfnr hne hp,
              hrec]
            dsimp only
            rw [npYears_cons_fn, npYears_append, hnpP, List.nil_append]
            have ihh := ih us' f'
            rw [hrec] at ihh
            exact List.cons_prefix_cons.2 ⟨rfl, ihh⟩
          | err =>
            rw [procYears_fnErrOut gw lpq mh rest uids found htv hfnr hne hp]
            rw [npYears_cons_fn, hnpP]
            exact List.cons_prefix_cons.2 ⟨rfl, List.nil_prefix⟩

theorem procYears_findNpsFor (gw : Gateway) (lpq mh : Int) :
    ∀ (ys : List Bucket) (uids : List String) (found : Int) (y : String)
      (bs : List Bucket), gw.facetNewspaper y = .ok bs →
      (npYears (procYears gw lpq mh ys uids found).2).Nodup →
      findNpsFor y (procYears gw lpq mh ys uids found).2 <+: truthyVals bs := by
  intro ys
  induction ys with
  | nil =>
    intro uids found y bs hbs hnd
    rw [procYears_nil, findNpsFor_nil]
    exact List.nil_prefix
  | cons b rest ih =>
    intro uids found y bs hbs hnd
    cases htv : truthyStr b.value with
    | none =>
      rw [procYears_skip gw lpq mh rest uids found htv] at hnd ⊢
      exact ih uids found y bs hbs hnd
    | some year =>
      cases hfnr : gw.facetNewspaper year with
      | err =>
        rw [procYears_fnErr gw lpq mh rest uids found htv hfnr]
        rw [findNpsFor_cons_fn, findNpsFor_nil]
        exact List.nil_prefix
      | ok papers =>
        by_cases hne : papers = []
        · subst hne
          rcases hrec : procYears gw lpq mh rest uids found with ⟨out, csR⟩
          rw [procYears_fnEmpty gw lpq mh rest uids found htv hfnr, hrec]
            at hnd ⊢
          dsimp only at hnd ⊢
          rw [npYears_cons_fn, List.nodup_cons] at hnd
          rw [findNpsFor_cons_fn]
          by_cases hyy : y = year
          · subst hyy
            have hnil : findNpsFor y csR = [] := by
              have := procYears_findNpsFor_nil gw lpq mh y rest uids found
              rw [hrec] at this
              exact this hnd.1
            rw [hnil]
            exact List.nil_prefix
          · have ihh := ih uids found y bs hbs
            rw [hrec] at ihh
            exact ihh hnd.2
        · rcases hp : procPapers gw lpq mh year papers uids found
            with ⟨pout, csP⟩
          have hnpP : npYears csP = [] := by
            have := npYears_procPapers gw lpq mh year papers uids found
            rw [hp] at this
            exact this
          cases pout with
          | done us' =>
            rw [procYears_fnDone gw lpq mh rest uids found htv hfnr hne hp]
            rw [findNpsFor_cons_fn]
            by_cases hyy : y = year
            · subst hyy
              have hbp : bs = papers := QR.ok.inj (hbs.symm.trans hfnr)
              subst hbp
              have := findNpsFor_procPapers gw lpq mh y bs uids found
              rw [hp] at this
              exact this
            · have := findNpsFor_procPapers_ne gw lpq mh year
                (fun he => hyy he) papers uids found
              rw [hp] at this
              rw [this]
              exact List.nil_prefix
          | cont us' f' =>
            rcases hrec : procYears gw lpq mh rest us' f' with ⟨out, csR⟩
            rw [procYears_fnCont gw lpq mh rest uids found htv hfnr hne hp,
              hrec] at hnd ⊢
            dsimp only at hnd ⊢
            rw [npYears_cons_fn, npYears_append, hnpP, List.nil_append,
              List.nodup_cons] at hnd
            rw [findNpsFor_cons_fn, findNpsFor_append]
            by_cases hyy : y = year
            · subst hyy
              have h2 : findNpsFor y csR = [] := by
                have := procYears_findNpsFor_nil gw lpq mh y rest us' f'
                rw [hrec] at this
                exact this hnd.1
              rw [h2, List.append_nil]
              have hbp : bs = papers := QR.ok.inj (hbs.symm.trans hfnr)
              subst hbp
              have := findNpsFor_procPapers gw lpq mh y bs uids found
              rw [hp] at this
              exact this
            · have h1 : findNpsFor y csP = [] := by
                have := findNpsFor_procPapers_ne gw lpq mh year
                  (fun he => hyy he) papers uids found
                rw [hp] at this
                exact this
              rw [h1, List.nil_append]
              have ihh := ih us' f' y bs hbs
              rw [hrec] at ihh
              exact ihh hnd.2
          | err =>
            rw [procYears_fnErrOut gw lpq mh rest uids found htv hfnr hne hp]
            rw [findNpsFor_cons_fn]
            by_cases hyy : y = year
            · subst hyy
              have hbp : bs = papers := QR.ok.inj (hbs.symm.trans hfnr)
              subst hbp
              have := findNpsFor_procPapers gw lpq mh y bs uids found
              rw [hp] at this
              exact this
            · have := findNpsFor_procPapers_ne gw lpq mh year
                (fun he => hyy he) papers uids found
              rw [hp] at this
              rw [this]
              exact List.nil_prefix

theorem truthyVals_sorted : ∀ {bs : List Bucket},
    List.Pairwise bucketLE bs → List.Sorted (· ≤ ·) (truthyVals bs) := by
  intro bs
  induction bs with
  | nil => intro h; exact List.sorted_nil
  | cons a l ih =>
    intro h
    rw [List.pairwise_cons] at h
    obtain ⟨hall, hl⟩ := h
    cases htv : truthyStr a.value with
    | none =>
      rw [truthyVals_cons_none l htv]
      exact ih hl
    | some s =>
      rw [truthyVals_cons_some l htv]
      rw [List.sorted_cons]
      refine ⟨?_, ih hl⟩
      intro t ht
      rw [truthyVals] at ht
      obtain ⟨b, hbmem, hbt⟩ := List.mem_filterMap.1 ht
      have h1 := truthyStr_eq_some htv
      have h2 := truthyStr_eq_some hbt
      have hab := hall b hbmem
      rw [bucketLE, h1, h2] at hab
      exact hab

/-- C4 counterexample: the newspaper (source) facet buckets are not sorted
before iteration.  With one year whose newspaper facet returns ids `b` then
`a`, the sampler issues the `find` call for `b` before the one for `a`, even
though `"a" < "b"` — it follows the API's return order, not ascending value
order, contradicting the claim that source buckets are sorted ascending
before iterating. -/
theorem newspaper_buckets_not_sorted :
    (sample_impresso_uids gwOneYear 20 20).2 =
      [Call.facetYear, Call.facetNewspaper "1900", Call.find "1900" "b",
       Call.find "1900" "a"] ∧
    ("a" : String) < "b" := by
  constructor
  · decide
  · rw [String.lt_iff_toList_lt]
    exact List.Lex.rel (by decide)

/-- C4 amended: the sampler sorts the year (time-facet) buckets ascending by
value before iterating over them — in every run the years of the
newspaper-facet calls form an ascending list — but the newspaper
(source-facet) buckets within each year are iterated in the order the API
returned them, without sorting: for each year (when years are pairwise
distinct) the newspaper ids of that year's `find` calls are a prefix of the
truthy newspaper bucket values exactly as the gateway returned them. -/
theorem sample_iteration_order (gw : Gateway) (lpq mh : Int) :
    List.Sorted (· ≤ ·) (npYears (sample_impresso_uids gw lpq mh).2) ∧
    (∀ y bs, gw.facetNewspaper y = .ok bs →
      (npYears (sample_impresso_uids gw lpq mh).2).Nodup →
      findNpsFor y (sample_impresso_uids gw lpq mh).2 <+: truthyVals bs) := by
  by_cases hc : 0 < lpq ∧ lpq ≤ 100
  · cases hy : gw.facetYear with
    | err =>
      rw [sample_fyErr gw lpq mh hc hy]
      constructor
      · dsimp only
        rw [npYears_cons_fy, npYears_nil]
        exact List.sorted_nil
      · intro y bs hbs hnd
        dsimp only
        rw [findNpsFor_cons_fy, findNpsFor_nil]
        exact List.nil_prefix
    | ok yb =>
      by_cases hne : yb = []
      · subst hne
        rw [sample_fyEmpty gw lpq mh hc hy]
        constructor
        · dsimp only
          rw [npYears_cons_fy, npYears_nil]
          exact List.sorted_nil
        · intro y bs hbs hnd
          dsimp only
          rw [findNpsFor_cons_fy, findNpsFor_nil]
          exact List.nil_prefix
      · rcases hp : procYears gw lpq mh (List.insertionSort bucketLE yb) [] 0
          with ⟨out, cs⟩
        have htrace : (sample_impresso_uids gw lpq mh).2 =
            Call.facetYear :: cs := by
          rw [sample_fyOk gw lpq mh hc hy hne, hp]
          cases out <;> rfl
        rw [htrace]
        constructor
        · rw [npYears_cons_fy]
          have hpre := procYears_npYears gw lpq mh
            (List.insertionSort bucketLE yb) [] 0
          rw [hp] at hpre
          have hsorted := truthyVals_sorted
            (List.sorted_insertionSort bucketLE yb)
          exact List.Pairwise.sublist hpre.sublist hsorted
        · intro y bs hbs hnd
          rw [npYears_cons_fy] at hnd
          rw [findNpsFor_cons_fy]
          have := procYears_findNpsFor gw lpq mh
            (List.insertionSort bucketLE yb) [] 0 y bs hbs
          rw [hp] at this
          exact this hnd
  · rw [sample_invalid gw lpq mh hc]
    constructor
    · exact List.sorted_nil
    · intro y bs hbs hnd
      exact List.nil_prefix

theorem sample_iteration_order_witness :
    List.Sorted (· ≤ ·) (npYears (sample_impresso_uids gwOneYear 20 20).2) ∧
    (findNpsFor "1900" (sample_impresso_uids gwOneYear 20 20).2 <+:
      truthyVals [⟨some "b"⟩, ⟨some "a"⟩]) :=
  ⟨(sample_iteration_order gwOneYear 20 20).1,
   (sample_iteration_order gwOneYear 20 20).2 "1900" [⟨some "b"⟩, ⟨some "a"⟩]
     rfl (by decide)⟩
